import Mathlib

/-!
Verification of the sandboxed filesystem / process layer of this repository
(`agent/functions/agent_functions.py`).

The four operations `get_files_info`, `get_file_content`, `write_file` and
`run_python_file` are embedded shallowly:

* POSIX paths are lists of name segments; `Path.resolve()` is modelled as the
  purely lexical canonicalization of `.` and `..` segments (the model contains
  no symlinks, matching the scope of the layer).
* the filesystem is a fixed snapshot: a list of (root-relative path, entry
  kind) pairs, in a fixed order that models the (deterministic, snapshot
  dependent) traversal order of `Path.iterdir` / `Path.rglob`;
* `Path.rglob` is modelled with glob semantics: each pattern component is
  matched by `fnmatch` (`*`, `?`, literal characters), and the exceptions the
  call raises on malformed or absolute patterns — which no `try` block of the
  source catches — are modelled explicitly (`rglobRaise`);
* fallible OS primitives (reading, writing, listing, spawning) take an
  explicit outcome argument enumerating the failure modes of the error
  taxonomy, and every operation returns `Except PyExc String` so that an
  unhandled fault would be visible as an `.error` value.
-/

/-- Python character sequences are modelled through `List Char`;
`s[:n]` on a `str` keeps the first `n` code points. -/
def pySlice (s : String) (n : Nat) : String :=
  String.mk (s.data.take n)

/-- Lowercasing as in `str.lower()` (ASCII range, which is what the
`.py` suffix check needs). -/
def pyLower (s : String) : String :=
  String.mk (s.data.map Char.toLower)

/-- `str.endswith(suffix)`. -/
def pyEndsWith (s suffix : String) : Bool :=
  suffix.data.isSuffixOf s.data

/-- Split a character list at `/` separators. -/
def splitSlashes : List Char → List Char → List String
  | [], acc => [String.mk acc.reverse]
  | c :: cs, acc =>
    if c = '/' then String.mk acc.reverse :: splitSlashes cs [] else splitSlashes cs (c :: acc)

/-- The name segments of a POSIX path string: split on `/`, dropping empty
segments (pathlib collapses repeated separators). -/
def pySegs (p : String) : List String :=
  (splitSlashes p.data []).filter (fun s => s ≠ "")

/-- Whether a path string is absolute. -/
def isAbsPath (p : String) : Bool :=
  match p.data with
  | c :: _ => c = '/'
  | [] => false

/-- One step of lexical canonicalization: `.` is dropped, `..` removes the
last segment (at `/` it stays at `/`, like POSIX), anything else is pushed. -/
def canonStep (acc : List String) (seg : String) : List String :=
  if seg = "." then acc
  else if seg = ".." then acc.dropLast
  else acc ++ [seg]

/-- Canonicalize segments against a base absolute path: the lexical content of
`(base / p).resolve()` in a symlink-free tree. -/
def canonAbs (base : List String) (segs : List String) : List String :=
  segs.foldl canonStep base

/-- `Path(working_directory).resolve()` for an absolute `working_directory`
string: its canonical segments from the filesystem root. -/
def rootOf (wd : String) : List String :=
  canonAbs [] (pySegs wd)

/-- Lines 85-97 / 149-158 / 214-223 / 270-279 of `agent_functions.py`:
join the requested path onto the sandbox root, canonicalize, and verify
containment with `relative_to`.  Returns the root-relative segments of the
target, or `none` when `relative_to` raises `ValueError` (access denied). -/
def resolveRel (root : List String) (p : String) : Option (List String) :=
  let base := if isAbsPath p then [] else root
  let abs := canonAbs base (pySegs p)
  if root.isPrefixOf abs then some (abs.drop root.length) else none

/-- `PurePath.parts` drops `.` segments (and empty ones); `..` is kept. -/
def pyParts (p : String) : List String :=
  (splitSlashes p.data []).filter (fun s => s ≠ "" && s ≠ ".")

/-- `Path(p).name`: the final part, or the empty string when there is none. -/
def pyName (p : String) : String :=
  (pyParts p).getLast?.getD ""

/-- The Python exceptions of the model.  All but the last two are produced by
primitives whose call sites sit inside a `try` with a matching handler; the
`rglob` calls can raise `ValueError` / `NotImplementedError` outside every
`try` block, so those two can cross the operation boundary. -/
inductive PyExc
  | permissionError
  | unicodeDecodeError
  | osError (msg : String)
  | fileNotFoundError
  | timeoutExpired
  | valueError (msg : String)
  | notImplementedError (msg : String)
  | exc (msg : String)
deriving DecidableEq

/-- All suffixes of a character list, longest first (the candidate remainders
a `*` wildcard can leave unconsumed). -/
def tailsOf : List Char → List (List Char)
  | [] => [[]]
  | c :: cs => (c :: cs) :: tailsOf cs

/-- `fnmatch` of one name against one pattern component: `*` matches any
sequence, `?` any single character, anything else itself (case-sensitive,
no special treatment of a leading dot — as in pathlib).  Character classes
are not interpreted: `[` matches only a literal `[`, so the model is exact
exactly for bracket-free components (see `globSegFaithful`). -/
def fnmatchChars : List Char → List Char → Bool
  | [], s => s.isEmpty
  | '*' :: ps, s => (tailsOf s).any (fun s2 => fnmatchChars ps s2)
  | '?' :: ps, s =>
    match s with
    | [] => false
    | _ :: cs => fnmatchChars ps cs
  | p :: ps, s =>
    match s with
    | [] => false
    | c :: cs => p == c && fnmatchChars ps cs

/-- `fnmatch.fnmatchcase(name, pat)` on whole component strings. -/
def fnmatchSeg (pat name : String) : Bool :=
  fnmatchChars pat.data name.data

/-- Whether two adjacent `*` occur anywhere in a component. -/
def hasDoubleStar : List Char → Bool
  | '*' :: '*' :: _ => true
  | _ :: cs => hasDoubleStar cs
  | [] => false

/-- The exception `Path.rglob(pattern)` raises before yielding anything:
`NotImplementedError` for an absolute pattern (checked first), and
`ValueError` when `**` occurs inside a longer component (raised while the
selector is built).  The `rglob` call sites (lines 102 / 164 / 229 / 285)
sit outside every `try` block, so these escape the operations uncaught. -/
def rglobRaise (patStr : String) : Option PyExc :=
  if isAbsPath patStr then
    some (.notImplementedError "Non-relative patterns are unsupported")
  else if (pyParts patStr).any (fun s => s != "**" && hasDoubleStar s.data) then
    some (.valueError "Invalid pattern: \x27**\x27 can only be an entire path component")
  else none

/-- Component-wise `fnmatch` of a pattern against equally many names. -/
def listFnmatch : List String → List String → Bool
  | [], [] => true
  | p :: ps, n :: ns => fnmatchSeg p n && listFnmatch ps ns
  | _, _ => false

/-- Whether `**/pattern` matches a root-relative path: the trailing
components of the path, one per pattern component, each `fnmatch` their
component (false whenever the path is shorter than the pattern). -/
def globSuffixMatch (pat q : List String) : Bool :=
  listFnmatch pat (q.drop (q.length - pat.length))

/-- A pattern component on which this glob model is exact: nonempty, not the
`.` / `..` selectors, no path separator, no character class bracket, and no
`**` (pathlib gives all of these special treatment the model leaves out). -/
def globSegFaithful (s : String) : Bool :=
  s != "" && s != "." && s != ".." && !s.data.contains '/' &&
    !s.data.contains '[' && !hasDoubleStar s.data

/-- The kind of a directory entry in the snapshot.  A `file` carries its byte
size (`st_size`) and its decoded text, `none` when the bytes are not valid
text in the expected encoding (reading raises `UnicodeDecodeError`).  `other`
stands for any entry that is neither a regular file nor a directory (broken
symlink, socket, fifo, ...): both `is_file()` and `is_dir()` are false on it. -/
inductive EntryKind
  | file (size : Nat) (text : Option String)
  | dir
  | other
deriving DecidableEq

/-- A fixed filesystem snapshot under the sandbox root: entries keyed by their
root-relative segment path.  The list order is the traversal order that
`iterdir` / `rglob` enumerate entries in (deterministic for the snapshot).
The root directory itself is implicit and always present. -/
structure FS where
  entries : List (List String × EntryKind)
deriving DecidableEq

/-- The entry paths of the snapshot, in traversal order. -/
def FS.paths (fs : FS) : List (List String) :=
  fs.entries.map (fun e => e.1)

/-- Whether some entry is recorded at `p`. -/
def FS.hasPath (fs : FS) (p : List String) : Bool :=
  fs.paths.contains p

/-- `Path.exists()` for the root-relative path `p` (the root itself exists). -/
def FS.existsP (fs : FS) (p : List String) : Bool :=
  p.isEmpty || fs.hasPath p

/-- The kind recorded at `p` (first entry wins), the implicit root being a
directory. -/
def FS.lookup (fs : FS) (p : List String) : Option EntryKind :=
  if p.isEmpty then some .dir
  else (fs.entries.find? (fun e => e.1 == p)).map (fun e => e.2)

/-- `Path.is_file()`. -/
def FS.isFileAt (fs : FS) (p : List String) : Bool :=
  match fs.lookup p with
  | some (.file _ _) => true
  | _ => false

/-- `Path.is_dir()`. -/
def FS.isDirAt (fs : FS) (p : List String) : Bool :=
  match fs.lookup p with
  | some .dir => true
  | _ => false

/-- The immediate children of directory `d`, in traversal order
(`Path.iterdir`). -/
def FS.childrenOf (fs : FS) (d : List String) : List (List String × EntryKind) :=
  fs.entries.filter (fun e => e.1.length == d.length + 1 && d.isPrefixOf e.1)

/-- `working_dir.rglob(pattern)` for a pattern that does not raise: every
entry whose trailing components `fnmatch` the pattern components (`rglob(p)`
behaves as `glob("**/" + p)`), in traversal order.  For a raising pattern
the operations model the exception before consulting the matches, so the
list is set to `[]` there; for a pattern with components outside
`globSegFaithful` the `fnmatch` model is approximate, and theorems about the
chosen match carry that hypothesis. -/
def FS.rglobMatches (fs : FS) (patStr : String) : List (List String) :=
  match rglobRaise patStr with
  | some _ => []
  | none => fs.paths.filter (fun q => globSuffixMatch (pyParts patStr) q)

/-- The proper ancestors positions of a path `p`: `p.take 1`, ..., `p` itself.
(`ancestors t.dropLast` are exactly the directories `mkdir(parents=True)`
must provide for target `t`.) -/
def ancestors (p : List String) : List (List String) :=
  (List.range p.length).map (fun i => p.take (i + 1))

/-- Whether `target.parent.mkdir(parents=True, exist_ok=True)` succeeds for
parent path `pt`: every position on the chain is either free or already a
directory; a file (or other entry) in the way raises `FileExistsError` /
`NotADirectoryError` (both `OSError`s) and creates nothing. -/
def FS.mkdirOk (fs : FS) (pt : List String) : Bool :=
  (ancestors pt).all (fun q =>
    match fs.lookup q with
    | none => true
    | some .dir => true
    | some _ => false)

/-- The snapshot after `mkdir(parents=True, exist_ok=True)` on parent `pt`:
each missing position on the chain is appended as a directory. -/
def FS.mkdirs (fs : FS) (pt : List String) : FS :=
  ⟨fs.entries ++ ((ancestors pt).filter (fun q => !fs.hasPath q)).map (fun q => (q, EntryKind.dir))⟩

/-- Whether `open(target, "w")` succeeds at `p`: a free position or a regular
file can be (over)written; a directory raises `IsADirectoryError` (an
`OSError`).  Entries of other kinds are also modelled as failing with an
`OSError`. -/
def FS.openWriteOk (fs : FS) (p : List String) : Bool :=
  match fs.lookup p with
  | none => true
  | some (.file _ _) => true
  | some _ => false

/-- The snapshot after writing text `c` at `p`: the entry is overwritten in
place (order preserved) or appended when new.  `st_size` of the written file
is the UTF-8 byte count of `c`. -/
def FS.setFile (fs : FS) (p : List String) (c : String) : FS :=
  if fs.hasPath p then
    ⟨fs.entries.map (fun e => if e.1 = p then (p, EntryKind.file c.utf8ByteSize (some c)) else e)⟩
  else
    ⟨fs.entries ++ [(p, EntryKind.file c.utf8ByteSize (some c))]⟩

/-- Failure modes of `open(...).read()` on an existing regular file of a
fixed snapshot (decode failure is determined by the snapshot itself). -/
inductive ReadOutcome
  | ok
  | permissionDenied
  | osFault (msg : String)
  | raised (msg : String)
deriving DecidableEq

/-- Failure modes of the `mkdir` + `open(...).write()` phase. -/
inductive WriteOutcome
  | ok
  | permissionDenied
  | osFault (msg : String)
  | raised (msg : String)
deriving DecidableEq

/-- Failure modes of `Path.iterdir` on an existing directory of a fixed
snapshot: only a permission refusal. -/
inductive IterOutcome
  | ok
  | permissionDenied
deriving DecidableEq

/-- What `subprocess.run(cmd, timeout=30, capture_output=True, text=True)`
did: completed with captured streams and exit code, exceeded the wall-clock
bound (`TimeoutExpired`), found no interpreter (`FileNotFoundError`), or
raised something else. -/
inductive ProcOutcome
  | completed (stdout stderr : String) (returncode : Int)
  | timedOut
  | interpreterMissing
  | raised (msg : String)
deriving DecidableEq

/-- Modelled from the spec: `MAX_FILE_CONTENT_LENGTH` is imported from
`agent/functions/config.py`, which is not part of the provided sources; the
spec fixes the truncation limit at 10,240 characters. -/
def MAX_FILE_CONTENT_LENGTH : Nat := 10240

/-- The wall-clock bound passed to `subprocess.run` (line 317). -/
def runTimeoutSeconds : Nat := 30

/-- Line 97. -/
def gfiDeniedMsg (directory wd : String) : String :=
  "Access denied: Directory \x27" ++ directory ++ "\x27 is outside the allowed working directory \x27" ++ wd ++ "\x27"

/-- Line 112. -/
def gfiNotFoundMsg (directory : String) : String :=
  "Directory \x27" ++ directory ++ "\x27 does not exist"

/-- Line 115. -/
def gfiNotDirMsg (directory : String) : String :=
  "\x27" ++ directory ++ "\x27 is not a directory"

/-- Line 131. -/
def gfiPermMsg (directory : String) : String :=
  "Permission denied accessing directory \x27" ++ directory ++ "\x27"

/-- Lines 158 / 223 / 279: the access-denied text shared verbatim by
`get_file_content`, `write_file` and `run_python_file`. -/
def accessDeniedFileMsg (p wd : String) : String :=
  "Error: Access denied: File \x27" ++ p ++ "\x27 is outside the allowed working directory \x27" ++ wd ++ "\x27"

/-- Lines 174 / 295: the not-found text shared by `get_file_content` and
`run_python_file`. -/
def fileNotFoundMsg (p : String) : String :=
  "Error: File \x27" ++ p ++ "\x27 not found"

/-- Lines 177 / 299. -/
def notRegularFileMsg (p : String) : String :=
  "Error: \x27" ++ p ++ "\x27 is not a regular file"

/-- Line 192. -/
def readDecodeMsg (p : String) : String :=
  "Error: Cannot read file \x27" ++ p ++ "\x27 - file appears to be binary or uses unsupported encoding"

/-- Line 194. -/
def readPermMsg (p : String) : String :=
  "Error: Permission denied reading file \x27" ++ p ++ "\x27"

/-- Line 196. -/
def readOsMsg (p m : String) : String :=
  "Error: Failed to read file \x27" ++ p ++ "\x27: " ++ m

/-- Line 198. -/
def readUnexpectedMsg (p m : String) : String :=
  "Error: Unexpected error reading file \x27" ++ p ++ "\x27: " ++ m

/-- Line 187: the truncation marker appended after the first
`MAX_FILE_CONTENT_LENGTH` characters. -/
def truncationMarker (p : String) : String :=
  "\n[...File \"" ++ p ++ "\" truncated at " ++ toString MAX_FILE_CONTENT_LENGTH ++ " characters]"

/-- Lines 184-189: truncate over-long content, appending the marker. -/
def truncateContent (p content : String) : String :=
  if content.length > MAX_FILE_CONTENT_LENGTH then
    pySlice content MAX_FILE_CONTENT_LENGTH ++ truncationMarker p
  else content

/-- Line 248. -/
def writeSuccessMsg (p : String) (c : String) : String :=
  "Successfully wrote to \"" ++ p ++ "\" (" ++ toString c.length ++ " characters written)"

/-- Line 251. -/
def writePermMsg (p : String) : String :=
  "Error: Permission denied writing to file \x27" ++ p ++ "\x27"

/-- Line 253. -/
def writeOsMsg (p m : String) : String :=
  "Error: Failed to write file \x27" ++ p ++ "\x27: " ++ m

/-- Line 255. -/
def writeUnexpectedMsg (p m : String) : String :=
  "Error: Unexpected error writing to file \x27" ++ p ++ "\x27: " ++ m

/-- Line 303. -/
def notPythonMsg (p : String) : String :=
  "Error: \x27" ++ p ++ "\x27 is not a Python file (must end with .py)"

/-- Line 343. -/
def runTimeoutMsg (p : String) : String :=
  "Error: Python script \x27" ++ p ++ "\x27 timed out after " ++ toString runTimeoutSeconds ++ " seconds"

/-- Line 345. -/
def interpreterMissingMsg : String :=
  "Error: Python interpreter not found - please ensure Python is installed and in PATH"

/-- Line 347. -/
def runFailMsg (p m : String) : String :=
  "Error: Failed to execute Python script \x27" ++ p ++ "\x27: " ++ m

/-- The model OS message for `IsADirectoryError` and other open-for-write
refusals. -/
def openWriteErrText : String := "[Errno 21] Is a directory"

/-- The model OS message for a `mkdir` chain blocked by a non-directory. -/
def mkdirErrText : String := "[Errno 17] File exists"

/-- One listing line of `get_files_info` (lines 121-129): regular files and
directories produce a line, directories reporting size 0; any other entry
kind produces none. -/
def gfiLine (e : List String × EntryKind) : Option String :=
  match e.2 with
  | .file sz _ => some (e.1.getLast?.getD "" ++ ": file_size=" ++ toString sz ++ ", is_dir=False")
  | .dir => some (e.1.getLast?.getD "" ++ ": file_size=0, is_dir=True")
  | .other => none

/-- Lines 114-133 of `get_files_info`: the directory-kind check, the
enumeration of immediate children, and the `PermissionError` handler around
`iterdir` (the only exception `iterdir` can raise on a fixed snapshot). -/
def gfiListPhase (fs : FS) (directory : String) (td : List String) (fx : IterOutcome) :
    Except PyExc String :=
  if !fs.isDirAt td then .ok (gfiNotDirMsg directory)
  else
    match fx with
    | .permissionDenied => .ok (gfiPermMsg directory)
    | .ok => .ok (String.intercalate "\n" ((fs.childrenOf td).filterMap gfiLine))

/-- `get_files_info(working_directory, directory=".")`, lines 72-133.
The `directory == "."` case short-circuits to the root (lines 88-89); the
`rglob` call of line 102 runs exactly when the target is absent and the
directory is not `"."`, and an exception it raises is uncaught; the
containment re-check after a successful `rglob` (lines 107-110) always
passes on the modelled (root-relative) matches and is therefore not a
separate branch of the model. -/
def get_files_info (wd : String) (fs : FS) (directory : String := ".") (fx : IterOutcome := .ok) :
    Except PyExc String :=
  let root := rootOf wd
  match (if directory = "." then some [] else resolveRel root directory) with
  | none => .ok (gfiDeniedMsg directory wd)
  | some t =>
    match (if fs.existsP t || directory = "." then none else rglobRaise directory) with
    | some e => .error e
    | none =>
      if !fs.existsP t && directory ≠ "." then
        match fs.rglobMatches directory with
        | f :: _ => gfiListPhase fs directory f fx
        | [] => .ok (gfiNotFoundMsg directory)
      else gfiListPhase fs directory t fx

/-- Lines 160-174 / 281-295: when the literal target is absent, search the
whole sandbox recursively for the basename (used as a glob pattern) and take
the first match; with no match, fail with the not-found text.  An exception
the `rglob` call raises is layered on top of this phase in the operations
(it precedes the match handling modelled here); as in `get_files_info`, the
containment re-check on the match always passes on the modelled matches. -/
def fileFallback (fs : FS) (t : List String) (name : String) (notFoundText : String) :
    Except String (List String) :=
  if fs.existsP t then .ok t
  else
    match fs.rglobMatches name with
    | f :: _ => .ok f
    | [] => .error notFoundText

/-- Lines 176-198 of `get_file_content`: the regular-file check, the read
with truncation, and the handlers that turn every exception of the read
phase into result text. -/
def gfcReadPhase (fs : FS) (p : String) (tf : List String) (fx : ReadOutcome) :
    Except PyExc String :=
  if !fs.isFileAt tf then .ok (notRegularFileMsg p)
  else
    match fx with
    | .ok =>
      match fs.lookup tf with
      | some (.file _ (some content)) => .ok (truncateContent p content)
      | some (.file _ none) => .ok (readDecodeMsg p)
      | _ => .ok (readOsMsg p "stat failure")
    | .permissionDenied => .ok (readPermMsg p)
    | .osFault m => .ok (readOsMsg p m)
    | .raised m => .ok (readUnexpectedMsg p m)

/-- `get_file_content(working_directory, file_path)`, lines 136-198.  The
`rglob` call of line 164 runs exactly when the literal target is absent, and
an exception it raises crosses the boundary uncaught. -/
def get_file_content (wd : String) (fs : FS) (p : String) (fx : ReadOutcome := .ok) :
    Except PyExc String :=
  match resolveRel (rootOf wd) p with
  | none => .ok (accessDeniedFileMsg p wd)
  | some t =>
    match (if fs.existsP t then none else rglobRaise (pyName p)) with
    | some e => .error e
    | none =>
      match fileFallback fs t (pyName p) (fileNotFoundMsg p) with
      | .error e => .ok e
      | .ok tf => gfcReadPhase fs p tf fx

/-- Lines 240-248 of `write_file` with a successful oracle: create the
missing parent directories of the chosen target and write the content there,
or convert the `OSError` of a blocked chain / unwritable target into result
text (handlers of lines 250-255).  The pair is (result text, snapshot after
the call). -/
def writeAt (fs : FS) (tf : List String) (p c : String) : String × FS :=
  if !fs.mkdirOk tf.dropLast then (writeOsMsg p mkdirErrText, fs)
  else
    let fs1 := fs.mkdirs tf.dropLast
    if !fs1.openWriteOk tf then (writeOsMsg p openWriteErrText, fs1)
    else (writeSuccessMsg p c, fs1.setFile tf c)

/-- Lines 226-238 of `write_file`: the overwrite-fallback trigger.  Only when
the literal target is missing AND its parent directory is missing is the
recursive basename search consulted; its first match (if any) becomes the
target, otherwise the literal target stands. -/
def writeTarget (fs : FS) (t : List String) (name : String) : List String :=
  if !fs.existsP t && !fs.existsP t.dropLast then
    match fs.rglobMatches name with
    | f :: _ => f
    | [] => t
  else t

/-- `write_file(working_directory, file_path, content)`, lines 201-255.
Besides the result text, the final snapshot is returned; the oracle failures
fire before any mutation.  The `rglob` call of line 229 runs exactly when
the literal target and its parent are both absent, and an exception it
raises crosses the boundary uncaught (before any mutation). -/
def write_file (wd : String) (fs : FS) (p c : String) (fx : WriteOutcome := .ok) :
    Except PyExc (String × FS) :=
  match resolveRel (rootOf wd) p with
  | none => .ok (accessDeniedFileMsg p wd, fs)
  | some t =>
    match (if fs.existsP t || fs.existsP t.dropLast then none else rglobRaise (pyName p)) with
    | some e => .error e
    | none =>
      let tf := writeTarget fs t (pyName p)
      match fx with
      | .ok => .ok (writeAt fs tf p c)
      | .permissionDenied => .ok (writePermMsg p, fs)
      | .osFault m => .ok (writeOsMsg p m, fs)
      | .raised m => .ok (writeUnexpectedMsg p m, fs)

/-- Lines 323-340 of `run_python_file`: assemble the blocks captured from the
completed child process, or the no-output sentinel. -/
def formatRun (stdout stderr : String) (returncode : Int) : String :=
  let output_parts :=
    (if stdout ≠ "" then ["STDOUT:\n" ++ stdout] else []) ++
    (if stderr ≠ "" then ["STDERR:\n" ++ stderr] else []) ++
    (if returncode ≠ 0 then ["Process exited with code " ++ toString returncode] else [])
  if output_parts.isEmpty then "No output produced."
  else String.intercalate "\n\n" output_parts

/-- Lines 269-303 of `run_python_file`: everything before the spawn.  The
child process is spawned exactly when this phase returns `.ok`; an `.error`
is returned to the caller as result text with no spawn. -/
def run_pre (wd : String) (fs : FS) (p : String) : Except String (List String) :=
  match resolveRel (rootOf wd) p with
  | none => .error (accessDeniedFileMsg p wd)
  | some t =>
    match fileFallback fs t (pyName p) (fileNotFoundMsg p) with
    | .error e => .error e
    | .ok tf =>
      if !fs.isFileAt tf then .error (notRegularFileMsg p)
      else if !pyEndsWith (pyLower p) ".py" then .error (notPythonMsg p)
      else .ok tf

/-- `run_python_file(working_directory, file_path, args=[])`, lines 257-347.
The `rglob` call of line 285 runs exactly when the literal target is absent,
and an exception it raises crosses the boundary uncaught (before any spawn);
the `args` only extend the spawned command line, so they influence the
result solely through the process outcome oracle. -/
def run_python_file (wd : String) (fs : FS) (p : String) (args : List String := [])
    (proc : ProcOutcome := .completed "" "" 0) : Except PyExc String :=
  match resolveRel (rootOf wd) p with
  | none => .ok (accessDeniedFileMsg p wd)
  | some t =>
    match (if fs.existsP t then none else rglobRaise (pyName p)) with
    | some e => .error e
    | none =>
      match run_pre wd fs p with
      | .error e => .ok e
      | .ok _ =>
        match proc with
        | .completed stdout stderr returncode => .ok (formatRun stdout stderr returncode)
        | .timedOut => .ok (runTimeoutMsg p)
        | .interpreterMissing => .ok interpreterMissingMsg
        | .raised m => .ok (runFailMsg p m)

/-- A realizable snapshot: no entry sits at the root position itself, and
every proper ancestor position of an entry is a directory (a real filesystem
cannot hold `a/b/c` without `a` and `a/b` being directories). -/
structure FS.WF (fs : FS) : Prop where
  nonnil : ∀ e ∈ fs.entries, e.1 ≠ []
  parents : ∀ e ∈ fs.entries, ∀ i : Nat, i + 1 < e.1.length →
    fs.lookup (e.1.take (i + 1)) = some EntryKind.dir


/-- The result shape described by the spec for a completed script: a stdout
block exactly when stdout is nonempty, then a stderr block exactly when
stderr is nonempty, then an exit-code line exactly when the exit code is
nonzero, and the fixed no-output sentinel when all three are absent. -/
def runOutputSpec (stdout stderr : String) (returncode : Int) : String :=
  if stdout = "" ∧ stderr = "" ∧ returncode = 0 then "No output produced."
  else
    String.intercalate "\n\n"
      ((if stdout ≠ "" then ["STDOUT:\n" ++ stdout] else []) ++
       (if stderr ≠ "" then ["STDERR:\n" ++ stderr] else []) ++
       (if returncode ≠ 0 then ["Process exited with code " ++ toString returncode] else []))


/-! ### Basic facts about the glob layer -/

theorem rglobMatches_ne_nil_no_raise {fs : FS} {s : String} {f : List String}
    {rest : List (List String)} (h : fs.rglobMatches s = f :: rest) :
    rglobRaise s = none := by
  unfold FS.rglobMatches at h
  cases hR : rglobRaise s with
  | none => rfl
  | some e => rw [hR] at h; exact List.noConfusion h

theorem rglobMatches_of_no_raise {fs : FS} {s : String} (h : rglobRaise s = none) :
    fs.rglobMatches s = fs.paths.filter (fun q => globSuffixMatch (pyParts s) q) := by
  unfold FS.rglobMatches
  rw [h]

theorem splitSlashes_no_slash {cs : List Char} (h : cs.contains '/' = false)
    (acc : List Char) : splitSlashes cs acc = [String.mk (acc.reverse ++ cs)] := by
  induction cs generalizing acc with
  | nil => simp [splitSlashes]
  | cons c cs ih =>
    by_cases hcc : c = '/'
    · subst hcc
      simp at h
    · have hcs : cs.contains '/' = false := by
        cases hx : cs.contains '/' with
        | false => rfl
        | true =>
          exfalso
          have : (c :: cs).contains '/' = true := by
            simp only [List.contains_cons, hx, Bool.or_true]
          rw [this] at h
          exact Bool.noConfusion h
      simp only [splitSlashes, if_neg hcc]
      rw [ih hcs]
      simp

theorem isAbsPath_eq_false_of_no_slash {s : String} (h : s.data.contains '/' = false) :
    isAbsPath s = false := by
  unfold isAbsPath
  cases hd : s.data with
  | nil => rfl
  | cons c cs =>
    rw [hd] at h
    have hc : ¬c = '/' := by
      intro hcc
      subst hcc
      simp at h
    simp [hc]

theorem globSegFaithful_elim {s : String} (h : globSegFaithful s = true) :
    s ≠ "" ∧ s ≠ "." ∧ s ≠ ".." ∧ s.data.contains '/' = false ∧
      s.data.contains '[' = false ∧ hasDoubleStar s.data = false := by
  unfold globSegFaithful at h
  simp only [Bool.and_eq_true, bne_iff_ne, Bool.not_eq_true', ne_eq] at h
  exact ⟨h.1.1.1.1.1, h.1.1.1.1.2, h.1.1.1.2, h.1.1.2, h.1.2, h.2⟩

theorem pyParts_of_faithful {s : String} (h : globSegFaithful s = true) :
    pyParts s = [s] := by
  obtain ⟨hne, hnd, _, hns, _, _⟩ := globSegFaithful_elim h
  unfold pyParts
  rw [splitSlashes_no_slash hns []]
  have hmk : String.mk s.data = s := rfl
  simp only [List.reverse_nil, List.nil_append, hmk]
  simp [List.filter, hne, hnd]

theorem rglobRaise_of_faithful_name {s : String} (h : globSegFaithful s = true) :
    rglobRaise s = none := by
  obtain ⟨_, _, _, hns, _, hds⟩ := globSegFaithful_elim h
  unfold rglobRaise
  rw [isAbsPath_eq_false_of_no_slash hns]
  rw [pyParts_of_faithful h]
  simp [hds]

theorem rglobRaise_of_parts_faithful {d : String} (habs : isAbsPath d = false)
    (h : (pyParts d).all globSegFaithful = true) : rglobRaise d = none := by
  unfold rglobRaise
  rw [habs]
  have hany : (pyParts d).any (fun s => s != "**" && hasDoubleStar s.data) = false := by
    rw [List.any_eq_false]
    intro x hx
    obtain ⟨_, _, _, _, _, hds⟩ := globSegFaithful_elim ((List.all_eq_true.mp h) x hx)
    simp [hds]
  simp [hany]

theorem fileFallback_guard_none {fs : FS} {t tf : List String} {s nf : String}
    (h : fileFallback fs t s nf = .ok tf) :
    (if fs.existsP t then none else rglobRaise s) = none := by
  unfold fileFallback at h
  cases hex : fs.existsP t with
  | true => simp [hex]
  | false =>
    rw [hex] at h
    simp only [Bool.false_eq_true, if_false] at h ⊢
    cases hm : fs.rglobMatches s with
    | nil => rw [hm] at h; exact Except.noConfusion h
    | cons f rest => exact rglobMatches_ne_nil_no_raise hm

theorem run_pre_elim {wd : String} {fs : FS} {p : String} {tf : List String}
    (h : run_pre wd fs p = .ok tf) :
    ∃ t, resolveRel (rootOf wd) p = some t ∧
      (if fs.existsP t then none else rglobRaise (pyName p)) = none ∧
      fileFallback fs t (pyName p) (fileNotFoundMsg p) = .ok tf := by
  cases hr : resolveRel (rootOf wd) p with
  | none =>
    exfalso
    simp only [run_pre, hr] at h
    exact Except.noConfusion h
  | some t =>
    simp only [run_pre, hr] at h
    cases hf : fileFallback fs t (pyName p) (fileNotFoundMsg p) with
    | error e =>
      exfalso
      simp only [hf] at h
      exact Except.noConfusion h
    | ok tf2 =>
      simp only [hf] at h
      refine ⟨t, rfl, fileFallback_guard_none hf, ?_⟩
      cases hfile : fs.isFileAt tf2 with
      | false => rw [hfile] at h; simp at h
      | true =>
        rw [hfile] at h
        cases hpy : pyEndsWith (pyLower p) ".py" with
        | false => rw [hpy] at h; simp at h
        | true =>
          rw [hpy] at h
          simp at h
          rw [← h]
          exact hf

/-- The exception check that precedes the spawn in `run_python_file`,
evaluated under a successful pre-phase: with the pre-phase `.ok`, the
operation reduces to the process-outcome dispatch. -/
theorem run_python_file_eq_of_pre_ok {wd : String} {fs : FS} {p : String} {tf : List String}
    (h : run_pre wd fs p = .ok tf) (args : List String) (proc : ProcOutcome) :
    run_python_file wd fs p args proc =
      match proc with
      | .completed stdout stderr returncode => .ok (formatRun stdout stderr returncode)
      | .timedOut => .ok (runTimeoutMsg p)
      | .interpreterMissing => .ok interpreterMissingMsg
      | .raised m => .ok (runFailMsg p m) := by
  obtain ⟨t, hr, hg, _⟩ := run_pre_elim h
  cases proc <;> simp [run_python_file, hr, hg, h]

theorem run_python_file_of_pre_error {wd : String} {fs : FS} {p e : String}
    {t : List String}
    (hr : resolveRel (rootOf wd) p = some t)
    (hg : (if fs.existsP t then none else rglobRaise (pyName p)) = none)
    (he : run_pre wd fs p = .error e) (args : List String) (proc : ProcOutcome) :
    run_python_file wd fs p args proc = .ok e := by
  simp [run_python_file, hr, hg, he]

/-! ### A sample sandbox snapshot used to instantiate the theorems -/

/-- A small snapshot mirroring the layout of the repository: a file and a
directory at the root, nested entries, and one entry that is neither file nor
directory. -/
def sampleFS : FS :=
  ⟨[(["main.py"], .file 8 (some "print(1)")),
    (["calculator"], .dir),
    (["calculator", "main.py"], .file 9 (some "calc main")),
    (["calculator", "pkg"], .dir),
    (["calculator", "pkg", "calculator.py"], .file 5 (some "class")),
    (["notes.txt"], .other)]⟩

/-- The snapshot after writing `hello` at `newdir/sub/f.txt` in the sample
snapshot: both directories created, then the file appended. -/
def sampleFSWritten : FS :=
  ⟨sampleFS.entries ++ [(["newdir"], .dir), (["newdir", "sub"], .dir),
    (["newdir", "sub", "f.txt"], .file 5 (some "hello"))]⟩


/-! ### Basic facts about resolution -/

theorem resolveRel_dot (root : List String) : resolveRel root "." = some [] := by
  have h1 : isAbsPath "." = false := rfl
  have h2 : pySegs "." = ["."] := rfl
  simp [resolveRel, h1, h2, canonAbs, canonStep, List.isPrefixOf_iff_prefix]

/-! ### C1: containment violations are rejected before anything else -/

/-- C1: for every operation and every requested path whose canonicalized join
onto the sandbox root is not the root or a descendant of it, the call returns
the access-denied error: the result does not depend on the snapshot or on any
later oracle (no existence check or fallback search can influence it), the
snapshot is returned unchanged by `write_file` (no mutation), and
`run_python_file` fails in its pre-spawn phase (no process spawn); in
particular the result is never the not-found error. -/
theorem access_denied_blocks_all_operations
    (wd : String) (fs : FS) (p c : String) (args : List String)
    (rfx : ReadOutcome) (wfx : WriteOutcome) (ifx : IterOutcome) (proc : ProcOutcome)
    (h : resolveRel (rootOf wd) p = none) :
    get_file_content wd fs p rfx = .ok (accessDeniedFileMsg p wd) ∧
    write_file wd fs p c wfx = .ok (accessDeniedFileMsg p wd, fs) ∧
    run_pre wd fs p = .error (accessDeniedFileMsg p wd) ∧
    run_python_file wd fs p args proc = .ok (accessDeniedFileMsg p wd) ∧
    get_files_info wd fs p ifx = .ok (gfiDeniedMsg p wd) := by
  have hdot : p ≠ "." := by
    intro hp
    rw [hp, resolveRel_dot] at h
    exact Option.noConfusion h
  refine ⟨?_, ?_, ?_, ?_, ?_⟩
  · simp [get_file_content, h]
  · simp [write_file, h]
  · simp [run_pre, h]
  · simp [run_python_file, run_pre, h]
  · simp [get_files_info, h, hdot]

/-- Witness for C1: the request `"../x"` escapes the root `/home/u/proj`; all
four operations deny it (none reports not-found), the snapshot is unchanged
and no spawn phase is reached. -/
theorem access_denied_blocks_all_operations_witness :
    get_file_content "/home/u/proj" sampleFS "../x" .ok =
      .ok (accessDeniedFileMsg "../x" "/home/u/proj") ∧
    write_file "/home/u/proj" sampleFS "../x" "hi" .ok =
      .ok (accessDeniedFileMsg "../x" "/home/u/proj", sampleFS) ∧
    run_pre "/home/u/proj" sampleFS "../x" =
      .error (accessDeniedFileMsg "../x" "/home/u/proj") ∧
    run_python_file "/home/u/proj" sampleFS "../x" [] (.completed "" "" 0) =
      .ok (accessDeniedFileMsg "../x" "/home/u/proj") ∧
    get_files_info "/home/u/proj" sampleFS "../x" .ok =
      .ok (gfiDeniedMsg "../x" "/home/u/proj") :=
  access_denied_blocks_all_operations "/home/u/proj" sampleFS "../x" "hi" []
    .ok .ok .ok (.completed "" "" 0) (by decide)

/-! ### Small facts about the snapshot model -/

theorem FS.existsP_of_lookup_isSome {fs : FS} {t : List String}
    (h : (fs.lookup t).isSome) : fs.existsP t = true := by
  cases ht : t.isEmpty with
  | true => simp [FS.existsP, ht]
  | false =>
    simp only [FS.lookup, ht, Bool.false_eq_true, if_false, Option.isSome_map'] at h
    rw [List.find?_isSome] at h
    obtain ⟨e, he, hpe⟩ := h
    simp only [FS.existsP, FS.hasPath, FS.paths, ht, Bool.false_or]
    rw [List.contains_iff_exists_mem_beq]
    exact ⟨t, List.mem_map.mpr ⟨e, he, beq_iff_eq.mp hpe⟩, by simp⟩

/-! ### C4: read truncation policy -/

/-- C4: reading a decodable text file reached at its literal location returns
the content unchanged when its length is at most `MAX_FILE_CONTENT_LENGTH`
(10,240); when longer, it returns exactly the first 10,240 characters
followed by the marker line naming the requested path and the limit.  Both
cases are ordinary `.ok` results (no separate error). -/
theorem read_truncation
    (wd : String) (fs : FS) (p : String) (t : List String) (sz : Nat) (text : String)
    (h1 : resolveRel (rootOf wd) p = some t)
    (h2 : fs.lookup t = some (.file sz (some text))) :
    get_file_content wd fs p .ok = .ok (truncateContent p text) ∧
    (text.length ≤ MAX_FILE_CONTENT_LENGTH → truncateContent p text = text) ∧
    (text.length > MAX_FILE_CONTENT_LENGTH →
      truncateContent p text = pySlice text MAX_FILE_CONTENT_LENGTH ++ truncationMarker p ∧
      (pySlice text MAX_FILE_CONTENT_LENGTH).length = MAX_FILE_CONTENT_LENGTH) := by
  have hex : fs.existsP t = true := FS.existsP_of_lookup_isSome (by rw [h2]; rfl)
  refine ⟨?_, ?_, ?_⟩
  · simp [get_file_content, h1, fileFallback, hex, gfcReadPhase, FS.isFileAt, h2]
  · intro hle
    simp [truncateContent, Nat.not_lt.mpr hle]
  · intro hgt
    refine ⟨by simp [truncateContent, hgt], ?_⟩
    show (text.data.take MAX_FILE_CONTENT_LENGTH).length = MAX_FILE_CONTENT_LENGTH
    rw [List.length_take]
    exact Nat.min_eq_left (Nat.le_of_lt (by exact hgt))

/-- Witness for C4: a 10,241-character file is cut to exactly 10,240
characters plus the marker; a short file comes back unchanged. -/
theorem read_truncation_witness :
    get_file_content "/r"
        ⟨[(["big.txt"], .file 10241 (some (String.mk (List.replicate 10241 'a'))))]⟩
        "big.txt" .ok =
      .ok (truncateContent "big.txt" (String.mk (List.replicate 10241 'a'))) ∧
    ((String.mk (List.replicate 10241 'a')).length ≤ MAX_FILE_CONTENT_LENGTH →
      truncateContent "big.txt" (String.mk (List.replicate 10241 'a')) =
        String.mk (List.replicate 10241 'a')) ∧
    ((String.mk (List.replicate 10241 'a')).length > MAX_FILE_CONTENT_LENGTH →
      truncateContent "big.txt" (String.mk (List.replicate 10241 'a')) =
        pySlice (String.mk (List.replicate 10241 'a')) MAX_FILE_CONTENT_LENGTH ++
          truncationMarker "big.txt" ∧
      (pySlice (String.mk (List.replicate 10241 'a')) MAX_FILE_CONTENT_LENGTH).length =
        MAX_FILE_CONTENT_LENGTH) :=
  read_truncation "/r" ⟨[(["big.txt"], .file 10241 (some (String.mk (List.replicate 10241 'a'))))]⟩
    "big.txt" ["big.txt"] 10241 (String.mk (List.replicate 10241 'a')) (by rfl) (by rfl)

/-! ### C6: the 30-second timeout -/

/-- C6: once the pre-spawn phase has succeeded, a child that exceeds the
wall-clock bound (`subprocess.run(..., timeout=30)` raising
`TimeoutExpired`) makes `run_python_file` return the timeout error text
naming the requested path and the 30-second bound, as an ordinary value
handed back to the caller. -/
theorem run_timeout_returns_timeout_error
    (wd : String) (fs : FS) (p : String) (args : List String) (tf : List String)
    (h : run_pre wd fs p = .ok tf) :
    run_python_file wd fs p args .timedOut =
      .ok ("Error: Python script \x27" ++ p ++ "\x27 timed out after " ++
        toString runTimeoutSeconds ++ " seconds") ∧
    runTimeoutSeconds = 30 := by
  constructor
  · rw [run_python_file_eq_of_pre_ok h args .timedOut]
    simp [runTimeoutMsg]
  · rfl

/-- Witness for C6: a script that the process oracle reports as timed out
yields the 30-second timeout error text. -/
theorem run_timeout_returns_timeout_error_witness :
    run_python_file "/r" sampleFS "main.py" [] .timedOut =
      .ok ("Error: Python script \x27main.py\x27 timed out after " ++
        toString runTimeoutSeconds ++ " seconds") ∧
    runTimeoutSeconds = 30 := by
  have h := run_timeout_returns_timeout_error "/r" sampleFS "main.py" [] ["main.py"] (by rfl)
  exact ⟨by rw [h.1]; rfl, h.2⟩

/-! ### C7: the shape of a completed run result -/

/-- C7: for every successfully spawned script, the result text is assembled
exactly as the spec states: stdout block iff nonempty stdout, stderr block
iff nonempty stderr, exit-code line iff nonzero exit code, and the fixed
no-output sentinel instead of an empty string when all are absent. -/
theorem run_output_shape
    (wd : String) (fs : FS) (p : String) (args : List String) (tf : List String)
    (h : run_pre wd fs p = .ok tf) :
    ∀ stdout stderr : String, ∀ returncode : Int,
      run_python_file wd fs p args (.completed stdout stderr returncode) =
        .ok (runOutputSpec stdout stderr returncode) := by
  intro stdout stderr returncode
  have hfmt : formatRun stdout stderr returncode = runOutputSpec stdout stderr returncode := by
    by_cases h1 : stdout = "" <;> by_cases h2 : stderr = "" <;> by_cases h3 : returncode = 0 <;>
      simp [formatRun, runOutputSpec, h1, h2, h3]
  rw [run_python_file_eq_of_pre_ok h args (.completed stdout stderr returncode)]
  simp [hfmt]

/-- Witness for C7: with no output and exit code 0 the sentinel text comes
back; with stdout `"ok"` and exit code 1 the result holds the stdout block
and the exit-code line. -/
theorem run_output_shape_witness :
    run_python_file "/r" sampleFS "main.py" [] (.completed "" "" 0) =
      .ok (runOutputSpec "" "" 0) ∧
    run_python_file "/r" sampleFS "main.py" [] (.completed "ok" "" 1) =
      .ok (runOutputSpec "ok" "" 1) ∧
    runOutputSpec "" "" 0 = "No output produced." ∧
    runOutputSpec "ok" "" 1 = "STDOUT:\nok\n\nProcess exited with code 1" := by
  have h := run_output_shape "/r" sampleFS "main.py" [] ["main.py"] (by rfl)
  exact ⟨h "" "" 0, h "ok" "" 1, by rfl, by rfl⟩

/-! ### C10: the `.py` extension check -/

/-- C10: once resolution (including the fallback) and the regular-file check
have succeeded, the pre-spawn phase fails with the wrong-file-type error
exactly when the requested path string, lowercased, does not end in `.py`:
the check is case-insensitive and looks at the path as supplied by the
caller, not at the resolved target.  An `.error` of the pre-spawn phase is
returned verbatim as the operation result. -/
theorem run_extension_check
    (wd : String) (fs : FS) (p : String) (t tf : List String)
    (h1 : resolveRel (rootOf wd) p = some t)
    (h2 : fileFallback fs t (pyName p) (fileNotFoundMsg p) = .ok tf)
    (h3 : fs.isFileAt tf = true) :
    (run_pre wd fs p = .error (notPythonMsg p) ↔ pyEndsWith (pyLower p) ".py" = false) ∧
    (pyEndsWith (pyLower p) ".py" = true → run_pre wd fs p = .ok tf) ∧
    (∀ e : String, ∀ args : List String, ∀ proc : ProcOutcome,
      run_pre wd fs p = .error e → run_python_file wd fs p args proc = .ok e) := by
  refine ⟨?_, ?_, ?_⟩
  · cases hpy : pyEndsWith (pyLower p) ".py" with
    | true =>
      simp only [run_pre, h1, h2, h3, hpy]
      simp
    | false =>
      simp only [run_pre, h1, h2, h3, hpy]
      simp
  · intro hpy
    simp only [run_pre, h1, h2, h3, hpy]
    simp
  · intro e args proc he
    exact run_python_file_of_pre_error h1 (fileFallback_guard_none h2) he args proc

/-- Witness for C10: the requested path `sub/MAIN.PY` (upper-case extension)
passes the case-insensitive check and reaches the spawn phase; the same
theorem instance confirms the wrong-file-type error is absent. -/
theorem run_extension_check_witness :
    (run_pre "/r" ⟨[(["sub"], .dir), (["sub", "MAIN.PY"], .file 3 (some "pass"))]⟩ "sub/MAIN.PY" =
        .error (notPythonMsg "sub/MAIN.PY") ↔
      pyEndsWith (pyLower "sub/MAIN.PY") ".py" = false) ∧
    (pyEndsWith (pyLower "sub/MAIN.PY") ".py" = true →
      run_pre "/r" ⟨[(["sub"], .dir), (["sub", "MAIN.PY"], .file 3 (some "pass"))]⟩ "sub/MAIN.PY" =
        .ok ["sub", "MAIN.PY"]) ∧
    (∀ e : String, ∀ args : List String, ∀ proc : ProcOutcome,
      run_pre "/r" ⟨[(["sub"], .dir), (["sub", "MAIN.PY"], .file 3 (some "pass"))]⟩ "sub/MAIN.PY" =
          .error e →
      run_python_file "/r" ⟨[(["sub"], .dir), (["sub", "MAIN.PY"], .file 3 (some "pass"))]⟩
          "sub/MAIN.PY" args proc = .ok e) :=
  run_extension_check "/r" ⟨[(["sub"], .dir), (["sub", "MAIN.PY"], .file 3 (some "pass"))]⟩
    "sub/MAIN.PY" ["sub", "MAIN.PY"] ["sub", "MAIN.PY"] (by rfl) (by rfl) (by rfl)

/-! ### C5: every operation returns a value, never a fault -/

theorem gfiListPhase_isOk (fs : FS) (d : String) (td : List String) (fx : IterOutcome) :
    (gfiListPhase fs d td fx).isOk = true := by
  unfold gfiListPhase
  split
  · rfl
  · cases fx <;> rfl

theorem gfcReadPhase_isOk (fs : FS) (p : String) (tf : List String) (fx : ReadOutcome) :
    (gfcReadPhase fs p tf fx).isOk = true := by
  unfold gfcReadPhase
  split
  · rfl
  · cases fx
    · cases hk : fs.lookup tf with
      | none => rfl
      | some k =>
        cases k with
        | file sz tx => cases tx <;> rfl
        | dir => rfl
        | other => rfl
    · rfl
    · rfl
    · rfl

/-- C5 counterexample: the claim "no exception or fault ever propagates, on
every input" is false of the program: for the legal directory name `a**b`
(absent from the snapshot), the `rglob` call of line 102 raises `ValueError`
- `**` inside a longer component - outside every `try` block, and the
exception crosses the operation boundary instead of any error text. -/
theorem operations_fault_counterexample :
    get_files_info "/r" sampleFS "a**b" .ok =
      .error (.valueError "Invalid pattern: \x27**\x27 can only be an entire path component") ∧
    (get_files_info "/r" sampleFS "a**b" .ok).isOk = false := by
  constructor
  · rfl
  · rfl

/-- C5 (amended): every operation returns a result value - never a fault -
for every input, snapshot and oracle outcome, **provided** the requested
path does not force the fallback `rglob` onto a malformed pattern (one that
makes `rglobRaise` fire: an absolute pattern, or `**` inside a longer
component); only those patterns make the uncaught `ValueError` /
`NotImplementedError` of the `rglob` call sites escape. -/
theorem operations_never_fault_on_wellformed_patterns
    (wd : String) (fs : FS) (d p c : String) (args : List String)
    (rfx : ReadOutcome) (wfx : WriteOutcome) (ifx : IterOutcome) (proc : ProcOutcome) :
    (rglobRaise (pyName p) = none →
      (get_file_content wd fs p rfx).isOk = true ∧
      (write_file wd fs p c wfx).isOk = true ∧
      (run_python_file wd fs p args proc).isOk = true) ∧
    (rglobRaise d = none → (get_files_info wd fs d ifx).isOk = true) := by
  constructor
  · intro hR
    refine ⟨?_, ?_, ?_⟩
    · cases hr : resolveRel (rootOf wd) p with
      | none => simp only [get_file_content, hr]; rfl
      | some t =>
        have hg : (if fs.existsP t then none else rglobRaise (pyName p)) = none := by
          cases hE : fs.existsP t <;> simp [hR]
        simp only [get_file_content, hr, hg]
        cases hf : fileFallback fs t (pyName p) (fileNotFoundMsg p) with
        | error e => simp only [hf]; rfl
        | ok tf => simp only [hf]; exact gfcReadPhase_isOk _ _ _ _
    · cases hr : resolveRel (rootOf wd) p with
      | none => simp only [write_file, hr]; rfl
      | some t =>
        have hg : (if fs.existsP t || fs.existsP t.dropLast then none
            else rglobRaise (pyName p)) = none := by
          cases hc : (fs.existsP t || fs.existsP t.dropLast) <;> simp [hR]
        simp only [write_file, hr, hg]
        cases wfx <;> rfl
    · cases hr : resolveRel (rootOf wd) p with
      | none => simp only [run_python_file, hr]; rfl
      | some t =>
        have hg : (if fs.existsP t then none else rglobRaise (pyName p)) = none := by
          cases hE : fs.existsP t <;> simp [hR]
        simp only [run_python_file, hr, hg]
        cases hp : run_pre wd fs p with
        | error e => simp only [hp]; rfl
        | ok tf =>
          simp only [hp]
          cases proc <;> rfl
  · intro hR
    cases hr : (if d = "." then some [] else resolveRel (rootOf wd) d) with
    | none => simp only [get_files_info, hr]; rfl
    | some t =>
      have hg : (if fs.existsP t || d = "." then none else rglobRaise d) = none := by
        cases hc : (fs.existsP t || d = ".") <;> simp [hR]
      simp only [get_files_info, hr, hg]
      split
      · split
        · exact gfiListPhase_isOk _ _ _ _
        · rfl
      · exact gfiListPhase_isOk _ _ _ _

/-- Witness for the amended C5: at ordinary requests - an existing file, a
missing file, a missing directory, a containment violation - all four
operations produce `.ok` result values. -/
theorem operations_never_fault_on_wellformed_patterns_witness :
    ((get_file_content "/r" sampleFS "main.py" .ok).isOk = true ∧
      (write_file "/r" sampleFS "missing/f.txt" "c" .permissionDenied).isOk = true ∧
      (run_python_file "/r" sampleFS "main.py" [] .timedOut).isOk = true) ∧
    (get_files_info "/r" sampleFS "nope" .ok).isOk = true := by
  have h1 := (operations_never_fault_on_wellformed_patterns "/r" sampleFS "nope" "main.py" "c"
    [] .ok .permissionDenied .ok .timedOut).1 (by rfl)
  have h2 := (operations_never_fault_on_wellformed_patterns "/r" sampleFS "nope" "missing/f.txt"
    "c" [] .ok .permissionDenied .ok .timedOut).1 (by rfl)
  have h3 := (operations_never_fault_on_wellformed_patterns "/r" sampleFS "nope" "main.py" "c"
    [] .ok .permissionDenied .ok .timedOut).2 (by rfl)
  exact ⟨⟨h1.1, h2.2.1, h1.2.2⟩, h3⟩

/-! ### C2: the recursive fallback search -/

/-- C2 counterexample: at the legal basename `a**b.txt` (absent from the
snapshot) the operation neither searches nor returns the not-found error the
claim requires for a match-less basename - the glob engine raises
`ValueError` on the malformed pattern and the exception escapes instead. -/
theorem fallback_malformed_basename_counterexample :
    get_file_content "/r" sampleFS "a**b.txt" .ok =
      .error (.valueError "Invalid pattern: \x27**\x27 can only be an entire path component") ∧
    get_file_content "/r" sampleFS "a**b.txt" .ok ≠ .ok (fileNotFoundMsg "a**b.txt") := by
  have h1 : get_file_content "/r" sampleFS "a**b.txt" .ok =
      .error (.valueError "Invalid pattern: \x27**\x27 can only be an entire path component") := rfl
  exact ⟨h1, by rw [h1]; exact fun h => Except.noConfusion h⟩

/-- C2 (amended): whenever the contained literal target of
`get_file_content`, `run_python_file` or `get_files_info` does not exist,
the operation searches the whole sandbox tree for entries **glob-matching**
the basename of the requested path (for `get_files_info`: the full requested
relative segments as a sub-path pattern) - the basename is handed to
`rglob`, so wildcards match as in `fnmatch` - continues with the first match
in the snapshot traversal order (deterministic for a fixed snapshot), and
returns the not-found error when nothing matches; a malformed pattern makes
the engine raise instead (see the counterexample), and the theorem is stated
for components in the exactly-modelled class `globSegFaithful`;
`get_files_info` with directory `"."` always lists the root and never
consults the search. -/
theorem fallback_search_first_match_glob
    (wd : String) (fs : FS) (p d : String) (t td : List String)
    (rfx : ReadOutcome) (ifx : IterOutcome) (args : List String) (proc : ProcOutcome) :
    (resolveRel (rootOf wd) p = some t → fs.existsP t = false →
      globSegFaithful (pyName p) = true →
      (fs.rglobMatches (pyName p) =
        fs.paths.filter (fun q => globSuffixMatch [pyName p] q)) ∧
      (fs.rglobMatches (pyName p) = [] →
        get_file_content wd fs p rfx = .ok (fileNotFoundMsg p) ∧
        run_pre wd fs p = .error (fileNotFoundMsg p) ∧
        run_python_file wd fs p args proc = .ok (fileNotFoundMsg p)) ∧
      (∀ f rest, fs.rglobMatches (pyName p) = f :: rest →
        fileFallback fs t (pyName p) (fileNotFoundMsg p) = .ok f ∧
        get_file_content wd fs p rfx = gfcReadPhase fs p f rfx)) ∧
    (d ≠ "." → resolveRel (rootOf wd) d = some td → fs.existsP td = false →
      isAbsPath d = false → (pyParts d).all globSegFaithful = true →
      (fs.rglobMatches d = fs.paths.filter (fun q => globSuffixMatch (pyParts d) q)) ∧
      (fs.rglobMatches d = [] → get_files_info wd fs d ifx = .ok (gfiNotFoundMsg d)) ∧
      (∀ f rest, fs.rglobMatches d = f :: rest →
        get_files_info wd fs d ifx = gfiListPhase fs d f ifx)) ∧
    get_files_info wd fs "." ifx = gfiListPhase fs "." [] ifx := by
  refine ⟨?_, ?_, ?_⟩
  · intro h1 hex hfa
    have hR : rglobRaise (pyName p) = none := rglobRaise_of_faithful_name hfa
    have hg : (if fs.existsP t then none else rglobRaise (pyName p)) = none := by
      simp [hex, hR]
    refine ⟨?_, ?_, ?_⟩
    · rw [rglobMatches_of_no_raise hR, pyParts_of_faithful hfa]
    · intro hm
      have hpre : run_pre wd fs p = .error (fileNotFoundMsg p) := by
        simp [run_pre, h1, fileFallback, hex, hm]
      refine ⟨?_, hpre, ?_⟩
      · simp [get_file_content, h1, hg, hR, fileFallback, hex, hm]
      · exact run_python_file_of_pre_error h1 hg hpre args proc
    · intro f rest hm
      have hff : fileFallback fs t (pyName p) (fileNotFoundMsg p) = .ok f := by
        simp [fileFallback, hex, hm]
      refine ⟨hff, ?_⟩
      simp [get_file_content, h1, hg, hR, hff]
  · intro hd h1 hex habs hall
    have hR : rglobRaise d = none := rglobRaise_of_parts_faithful habs hall
    have hg : (if fs.existsP td || d = "." then none else rglobRaise d) = none := by
      simp [hex, hd, hR]
    refine ⟨rglobMatches_of_no_raise hR, ?_, ?_⟩
    · intro hm
      simp [get_files_info, hd, h1, hg, hR, hex, hm]
    · intro f rest hm
      simp [get_files_info, hd, h1, hg, hR, hex, hm]
  · simp [get_files_info, FS.existsP]

/-- Witness for the amended C2: the wildcard basename `*.py` (absent
literally) glob-resolves to the first `.py` file of the traversal and is
read; `calculator.py` is found by its literal name at
`calculator/pkg/calculator.py`; `missing.txt` has no match anywhere and
yields not-found from all three operations; directory `pkg` is located as
`calculator/pkg` and listed; `"."` lists the root. -/
theorem fallback_search_first_match_glob_witness :
    (sampleFS.rglobMatches "*.py" =
      sampleFS.paths.filter (fun q => globSuffixMatch ["*.py"] q)) ∧
    (fileFallback sampleFS ["*.py"] (pyName "*.py") (fileNotFoundMsg "*.py") =
        .ok ["main.py"] ∧
      get_file_content "/r" sampleFS "*.py" .ok = gfcReadPhase sampleFS "*.py" ["main.py"] .ok) ∧
    gfcReadPhase sampleFS "*.py" ["main.py"] .ok = .ok "print(1)" ∧
    (fileFallback sampleFS ["calculator.py"] (pyName "calculator.py")
        (fileNotFoundMsg "calculator.py") = .ok ["calculator", "pkg", "calculator.py"] ∧
      get_file_content "/r" sampleFS "calculator.py" .ok =
        gfcReadPhase sampleFS "calculator.py" ["calculator", "pkg", "calculator.py"] .ok) ∧
    (get_file_content "/r" sampleFS "missing.txt" .ok = .ok (fileNotFoundMsg "missing.txt") ∧
      run_pre "/r" sampleFS "missing.txt" = .error (fileNotFoundMsg "missing.txt") ∧
      run_python_file "/r" sampleFS "missing.txt" [] (.completed "" "" 0) =
        .ok (fileNotFoundMsg "missing.txt")) ∧
    get_files_info "/r" sampleFS "pkg" .ok = gfiListPhase sampleFS "pkg" ["calculator", "pkg"] .ok ∧
    get_files_info "/r" sampleFS "." .ok = gfiListPhase sampleFS "." [] .ok := by
  refine ⟨?_, ?_, by rfl, ?_, ?_, ?_, ?_⟩
  · exact ((fallback_search_first_match_glob "/r" sampleFS "*.py" "." ["*.py"] []
      .ok .ok [] (.completed "" "" 0)).1 (by rfl) (by rfl) (by rfl)).1
  · exact ((fallback_search_first_match_glob "/r" sampleFS "*.py" "." ["*.py"] []
      .ok .ok [] (.completed "" "" 0)).1 (by rfl) (by rfl) (by rfl)).2.2
      ["main.py"] [["calculator", "main.py"], ["calculator", "pkg", "calculator.py"]] (by rfl)
  · exact ((fallback_search_first_match_glob "/r" sampleFS "calculator.py" "." ["calculator.py"]
      [] .ok .ok [] (.completed "" "" 0)).1 (by rfl) (by rfl) (by rfl)).2.2
      ["calculator", "pkg", "calculator.py"] [] (by rfl)
  · exact ((fallback_search_first_match_glob "/r" sampleFS "missing.txt" "." ["missing.txt"]
      [] .ok .ok [] (.completed "" "" 0)).1 (by rfl) (by rfl) (by rfl)).2.1 (by rfl)
  · exact ((fallback_search_first_match_glob "/r" sampleFS "x" "pkg" [] ["pkg"]
      .ok .ok [] (.completed "" "" 0)).2.1 (by decide) (by rfl) (by rfl) (by rfl)
      (by rfl)).2.2 ["calculator", "pkg"] [] (by rfl)
  · exact (fallback_search_first_match_glob "/r" sampleFS "x" "." [] []
      .ok .ok [] (.completed "" "" 0)).2.2

/-! ### C9: listing emits lines only for regular files and directories -/

theorem FS.existsP_append_entry (fs : FS) (x : List String × EntryKind) (t : List String)
    (h : fs.existsP t = true) : FS.existsP ⟨fs.entries ++ [x]⟩ t = true := by
  cases ht : t.isEmpty with
  | true => simp [FS.existsP, ht]
  | false =>
    simp only [FS.existsP, ht, Bool.false_or] at h ⊢
    simp only [FS.hasPath, FS.paths, List.map_append, List.contains_eq_any_beq,
      List.any_append] at h ⊢
    simp [h]

theorem FS.lookup_append_entry (fs : FS) (x : List String × EntryKind) (t : List String)
    (h : (fs.lookup t).isSome) : FS.lookup ⟨fs.entries ++ [x]⟩ t = fs.lookup t := by
  unfold FS.lookup at h ⊢
  by_cases ht : t.isEmpty
  · simp [ht]
  · simp only [ht, Bool.false_eq_true, if_false] at h ⊢
    rw [List.find?_append]
    cases hf : fs.entries.find? (fun e => e.1 == t) with
    | some e => rfl
    | none => rw [hf] at h; exact Bool.noConfusion h

/-- C9: `get_files_info` on an existing directory emits one line per
immediate child that is a regular file or a directory — with the recorded
size for files and size 0 for directories — and nothing at all for a child
of any other kind: appending such an entry (broken symlink, socket, fifo,
...) to the snapshot leaves the listing unchanged, with no error either. -/
theorem listing_omits_other_kinds
    (wd : String) (fs : FS) (d : String) (t : List String) (nm : String)
    (h1 : (if d = "." then some [] else resolveRel (rootOf wd) d) = some t)
    (h2 : fs.existsP t = true)
    (h3 : fs.isDirAt t = true) :
    get_files_info wd fs d .ok =
      .ok (String.intercalate "\n" ((fs.childrenOf t).filterMap gfiLine)) ∧
    (∀ sz tx, gfiLine (t ++ [nm], .file sz tx) =
      some (nm ++ ": file_size=" ++ toString sz ++ ", is_dir=False")) ∧
    gfiLine (t ++ [nm], .dir) = some (nm ++ ": file_size=0, is_dir=True") ∧
    gfiLine (t ++ [nm], .other) = none ∧
    get_files_info wd ⟨fs.entries ++ [(t ++ [nm], .other)]⟩ d .ok =
      get_files_info wd fs d .ok := by
  have hlookup : FS.lookup ⟨fs.entries ++ [(t ++ [nm], EntryKind.other)]⟩ t = fs.lookup t := by
    apply FS.lookup_append_entry
    unfold FS.isDirAt at h3
    cases hk : fs.lookup t with
    | none => rw [hk] at h3; simp at h3
    | some k => rfl
  have hex2 : FS.existsP ⟨fs.entries ++ [(t ++ [nm], EntryKind.other)]⟩ t = true :=
    FS.existsP_append_entry fs _ t h2
  have hdir2 : FS.isDirAt ⟨fs.entries ++ [(t ++ [nm], EntryKind.other)]⟩ t = true := by
    unfold FS.isDirAt
    rw [hlookup]
    exact h3
  have hchild : FS.childrenOf ⟨fs.entries ++ [(t ++ [nm], EntryKind.other)]⟩ t =
      fs.childrenOf t ++ [(t ++ [nm], EntryKind.other)] := by
    unfold FS.childrenOf
    rw [List.filter_append]
    congr 1
    simp [List.isPrefixOf_iff_prefix]
  refine ⟨?_, ?_, ?_, ?_, ?_⟩
  · by_cases hd : d = "."
    · subst hd
      rw [if_pos rfl] at h1
      injection h1 with h1
      subst h1
      simp [get_files_info, gfiListPhase, h3, FS.existsP]
    · rw [if_neg hd] at h1
      simp [get_files_info, hd, h1, h2, gfiListPhase, h3]
  · intro sz tx
    simp [gfiLine, List.getLast?_concat]
  · simp [gfiLine, List.getLast?_concat]
  · simp [gfiLine]
  · by_cases hd : d = "."
    · subst hd
      rw [if_pos rfl] at h1
      injection h1 with h1
      subst h1
      simp only [List.nil_append] at hdir2 hchild
      simp [get_files_info, gfiListPhase, h3, hdir2, FS.existsP, hchild, gfiLine]
    · rw [if_neg hd] at h1
      simp [get_files_info, hd, h1, h2, hex2, gfiListPhase, h3, hdir2, hchild, gfiLine]

/-- Witness for C9: listing `calculator` in the sample snapshot emits lines
for its file and subdirectory children only, and appending a socket-like
entry `calculator/weird.sock` to the snapshot leaves the listing unchanged. -/
theorem listing_omits_other_kinds_witness :
    get_files_info "/r" sampleFS "calculator" .ok =
      .ok (String.intercalate "\n" ((sampleFS.childrenOf ["calculator"]).filterMap gfiLine)) ∧
    (∀ sz tx, gfiLine (["calculator"] ++ ["weird.sock"], .file sz tx) =
      some ("weird.sock" ++ ": file_size=" ++ toString sz ++ ", is_dir=False")) ∧
    gfiLine (["calculator"] ++ ["weird.sock"], .dir) =
      some ("weird.sock" ++ ": file_size=0, is_dir=True") ∧
    gfiLine (["calculator"] ++ ["weird.sock"], .other) = none ∧
    get_files_info "/r" ⟨sampleFS.entries ++ [(["calculator"] ++ ["weird.sock"], .other)]⟩
        "calculator" .ok =
      get_files_info "/r" sampleFS "calculator" .ok :=
  listing_omits_other_kinds "/r" sampleFS "calculator" ["calculator"] "weird.sock"
    (by rfl) (by rfl) (by rfl)

/-! ### Lemmas about the snapshot mutators (for the write-path claims) -/

theorem FS.hasPath_iff {fs : FS} {q : List String} :
    fs.hasPath q = true ↔ ∃ e ∈ fs.entries, e.1 = q := by
  simp only [FS.hasPath, FS.paths]
  rw [List.contains_iff_exists_mem_beq]
  constructor
  · rintro ⟨x, hx, hqx⟩
    obtain ⟨e, he, hfe⟩ := List.mem_map.mp hx
    exact ⟨e, he, hfe.trans (beq_iff_eq.mp hqx).symm⟩
  · rintro ⟨e, he, hq⟩
    exact ⟨e.1, List.mem_map.mpr ⟨e, he, rfl⟩, beq_iff_eq.mpr hq.symm⟩

theorem FS.find?_eq_none_of_not_hasPath {fs : FS} {q : List String}
    (h : fs.hasPath q = false) : fs.entries.find? (fun e => e.1 == q) = none := by
  rw [List.find?_eq_none]
  intro e he hbe
  exact absurd (FS.hasPath_iff.mpr ⟨e, he, beq_iff_eq.mp hbe⟩) (by simp [h])

theorem FS.lookup_eq_none_of_not_hasPath {fs : FS} {q : List String}
    (hq : q.isEmpty = false) (h : fs.hasPath q = false) : fs.lookup q = none := by
  simp [FS.lookup, hq, FS.find?_eq_none_of_not_hasPath h]

theorem FS.hasPath_of_lookup_some {fs : FS} {q : List String} {k : EntryKind}
    (hq : q.isEmpty = false) (h : fs.lookup q = some k) : fs.hasPath q = true := by
  cases hh : fs.hasPath q with
  | true => rfl
  | false => rw [FS.lookup_eq_none_of_not_hasPath hq hh] at h; exact Option.noConfusion h

theorem mem_ancestors {p q : List String} :
    q ∈ ancestors p ↔ ∃ i, i < p.length ∧ q = p.take (i + 1) := by
  simp only [ancestors, List.mem_map, List.mem_range]
  constructor
  · rintro ⟨i, hi, rfl⟩
    exact ⟨i, hi, rfl⟩
  · rintro ⟨i, hi, rfl⟩
    exact ⟨i, hi, rfl⟩

theorem length_le_of_mem_ancestors {p q : List String} (h : q ∈ ancestors p) :
    q.length ≤ p.length := by
  obtain ⟨i, hi, rfl⟩ := mem_ancestors.mp h
  simp [List.length_take]

theorem isEmpty_false_of_mem_ancestors {p q : List String} (h : q ∈ ancestors p) :
    q.isEmpty = false := by
  obtain ⟨i, hi, rfl⟩ := mem_ancestors.mp h
  cases p with
  | nil => simp at hi
  | cons a l => simp

theorem not_mem_ancestors_dropLast {t : List String} (ht : t ≠ []) :
    t ∉ ancestors t.dropLast := by
  intro hmem
  have hle := length_le_of_mem_ancestors hmem
  rw [List.length_dropLast] at hle
  have hpos : 0 < t.length := List.length_pos.mpr ht
  omega

theorem FS.mkdirs_entry_paths {fs : FS} {pt : List String} {e : List String × EntryKind}
    (he : e ∈ ((ancestors pt).filter (fun q => !fs.hasPath q)).map (fun q => (q, EntryKind.dir))) :
    e.1 ∈ ancestors pt ∧ fs.hasPath e.1 = false ∧ e.2 = EntryKind.dir := by
  obtain ⟨q, hq, rfl⟩ := List.mem_map.mp he
  obtain ⟨hq1, hq2⟩ := List.mem_filter.mp hq
  exact ⟨hq1, by simpa using hq2, rfl⟩

theorem find?_pair_of_mem {l : List (List String)} {q : List String} (hq : q ∈ l) :
    (l.map (fun r => (r, EntryKind.dir))).find? (fun e => e.1 == q) =
      some (q, EntryKind.dir) := by
  induction l with
  | nil => cases hq
  | cons a l ih =>
    simp only [List.map_cons, List.find?_cons]
    by_cases ha : a = q
    · subst ha
      simp
    · have hbe : ((a, EntryKind.dir).1 == q) = false := by simp [ha]
      rw [hbe]
      exact ih (by
        rcases List.mem_cons.mp hq with h | h
        · exact absurd h.symm ha
        · exact h)

theorem FS.lookup_mkdirs_not_mem {fs : FS} {pt q : List String}
    (hq : q ∉ ancestors pt) : (fs.mkdirs pt).lookup q = fs.lookup q := by
  cases he : q.isEmpty with
  | true => simp [FS.lookup, he]
  | false =>
    simp only [FS.lookup, FS.mkdirs, he, Bool.false_eq_true, if_false, List.find?_append]
    cases hf : fs.entries.find? (fun e => e.1 == q) with
    | some e => rfl
    | none =>
      rw [Option.none_or]
      have hnone : (((ancestors pt).filter (fun r => !fs.hasPath r)).map
          (fun r => (r, EntryKind.dir))).find? (fun e => e.1 == q) = none := by
        rw [List.find?_eq_none]
        intro e hmem hbe
        obtain ⟨h1, _, _⟩ := FS.mkdirs_entry_paths hmem
        exact hq (beq_iff_eq.mp hbe ▸ h1)
      rw [hnone]

theorem FS.lookup_mkdirs_mem {fs : FS} {pt q : List String}
    (hok : fs.mkdirOk pt = true) (hq : q ∈ ancestors pt) :
    (fs.mkdirs pt).lookup q = some EntryKind.dir := by
  have hne : q.isEmpty = false := isEmpty_false_of_mem_ancestors hq
  have hlq := (List.all_eq_true.mp hok) q hq
  cases hk : fs.lookup q with
  | some k =>
    cases k with
    | dir =>
      simp only [FS.lookup, FS.mkdirs, hne, Bool.false_eq_true, if_false, List.find?_append]
      simp only [FS.lookup, hne, Bool.false_eq_true, if_false] at hk
      cases hf : fs.entries.find? (fun e => e.1 == q) with
      | some e => rw [hf] at hk; simpa using hk
      | none => rw [hf] at hk; simp at hk
    | file sz tx => rw [hk] at hlq; simp at hlq
    | other => rw [hk] at hlq; simp at hlq
  | none =>
    have hnp : fs.hasPath q = false := by
      cases hh : fs.hasPath q with
      | false => rfl
      | true =>
        exfalso
        obtain ⟨e, he, hrf⟩ := FS.hasPath_iff.mp hh
        simp only [FS.lookup, hne, Bool.false_eq_true, if_false] at hk
        rw [Option.map_eq_none'] at hk
        rw [List.find?_eq_none] at hk
        exact hk e he (by simp [hrf])
    have hmem : q ∈ (ancestors pt).filter (fun r => !fs.hasPath r) :=
      List.mem_filter.mpr ⟨hq, by simp [hnp]⟩
    simp only [FS.lookup, FS.mkdirs, hne, Bool.false_eq_true, if_false, List.find?_append,
      FS.find?_eq_none_of_not_hasPath hnp, Option.none_or, find?_pair_of_mem hmem]
    rfl

theorem FS.hasPath_mkdirs_of_hasPath {fs : FS} {pt q : List String}
    (h : fs.hasPath q = true) : (fs.mkdirs pt).hasPath q = true := by
  obtain ⟨e, he, hq⟩ := FS.hasPath_iff.mp h
  exact FS.hasPath_iff.mpr ⟨e, by simp [FS.mkdirs, he], hq⟩

theorem FS.hasPath_mkdirs_of_mem {fs : FS} {pt q : List String}
    (hq : q ∈ ancestors pt) : (fs.mkdirs pt).hasPath q = true := by
  cases hh : fs.hasPath q with
  | true => exact FS.hasPath_mkdirs_of_hasPath hh
  | false =>
    refine FS.hasPath_iff.mpr ⟨(q, EntryKind.dir), ?_, rfl⟩
    simp only [FS.mkdirs, List.mem_append]
    exact Or.inr (List.mem_map.mpr ⟨q, List.mem_filter.mpr ⟨hq, by simp [hh]⟩, rfl⟩)

theorem FS.hasPath_mkdirs_of_not {fs : FS} {pt q : List String}
    (h : fs.hasPath q = false) (hq : q ∉ ancestors pt) :
    (fs.mkdirs pt).hasPath q = false := by
  cases hh : (fs.mkdirs pt).hasPath q with
  | false => rfl
  | true =>
    exfalso
    obtain ⟨e, he, hrf⟩ := FS.hasPath_iff.mp hh
    rcases List.mem_append.mp he with h1 | h2
    · exact absurd (FS.hasPath_iff.mpr ⟨e, h1, hrf⟩) (by simp [h])
    · obtain ⟨hq1, _, _⟩ := FS.mkdirs_entry_paths h2
      exact hq (hrf ▸ hq1)

theorem FS.mkdirs_eq_self {fs : FS} {pt : List String}
    (h : ∀ q ∈ ancestors pt, fs.hasPath q = true) : fs.mkdirs pt = fs := by
  have hfil : (ancestors pt).filter (fun q => !fs.hasPath q) = [] := by
    rw [List.filter_eq_nil_iff]
    intro q hq
    simp [h q hq]
  simp [FS.mkdirs, hfil]

theorem find?_update_self {l : List (List String × EntryKind)} {t : List String} {K : EntryKind}
    (h : ∃ e ∈ l, e.1 = t) :
    (l.map (fun e => if e.1 = t then (t, K) else e)).find? (fun e => e.1 == t) =
      some (t, K) := by
  induction l with
  | nil =>
    obtain ⟨e, he, _⟩ := h
    cases he
  | cons a l ih =>
    simp only [List.map_cons, List.find?_cons]
    by_cases ha : a.1 = t
    · rw [if_pos ha]
      simp
    · rw [if_neg ha]
      have hbe : (a.1 == t) = false := by simp [ha]
      rw [hbe]
      apply ih
      rcases h with ⟨e, he, het⟩
      rcases List.mem_cons.mp he with rfl | hm
      · exact absurd het ha
      · exact ⟨e, hm, het⟩

theorem find?_update_other {l : List (List String × EntryKind)} {t q : List String}
    {K : EntryKind} (hq : q ≠ t) :
    (l.map (fun e => if e.1 = t then (t, K) else e)).find? (fun e => e.1 == q) =
      l.find? (fun e => e.1 == q) := by
  induction l with
  | nil => rfl
  | cons a l ih =>
    simp only [List.map_cons, List.find?_cons]
    by_cases ha : a.1 = t
    · rw [if_pos ha]
      have hqt : ¬t = q := fun h => hq h.symm
      have h1 : (((t, K) : List String × EntryKind).1 == q) = false := by
        simp [hqt]
      have h2 : (a.1 == q) = false := by simp [ha, hqt]
      rw [h1, h2]
      exact ih
    · rw [if_neg ha]
      cases hp : (a.1 == q) with
      | true => rfl
      | false => exact ih

theorem FS.paths_setFile_of_hasPath {fs : FS} {t : List String} {c : String}
    (h : fs.hasPath t = true) : (fs.setFile t c).paths = fs.paths := by
  simp only [FS.setFile, h, if_pos, FS.paths, List.map_map]
  apply List.map_congr_left
  intro e he
  by_cases ha : e.1 = t
  · simp [Function.comp, ha]
  · simp [Function.comp, ha]

theorem FS.hasPath_setFile_self {fs : FS} {t : List String} {c : String} :
    (fs.setFile t c).hasPath t = true := by
  cases hh : fs.hasPath t with
  | true =>
    unfold FS.hasPath
    rw [FS.paths_setFile_of_hasPath hh]
    exact hh
  | false =>
    refine FS.hasPath_iff.mpr ⟨(t, EntryKind.file c.utf8ByteSize (some c)), ?_, rfl⟩
    simp [FS.setFile, hh]

theorem FS.hasPath_setFile_other {fs : FS} {t q : List String} {c : String} (hq : q ≠ t) :
    (fs.setFile t c).hasPath q = fs.hasPath q := by
  cases hh : fs.hasPath t with
  | true =>
    unfold FS.hasPath
    rw [FS.paths_setFile_of_hasPath hh]
  | false =>
    simp only [FS.setFile, hh, Bool.false_eq_true, if_false]
    cases hr : fs.hasPath q with
    | true =>
      obtain ⟨e, he, hrf⟩ := FS.hasPath_iff.mp hr
      exact FS.hasPath_iff.mpr ⟨e, by simp [he], hrf⟩
    | false =>
      cases hx : FS.hasPath ⟨fs.entries ++ [(t, EntryKind.file c.utf8ByteSize (some c))]⟩ q with
      | false => rfl
      | true =>
        exfalso
        obtain ⟨e, he, hrf⟩ := FS.hasPath_iff.mp hx
        rcases List.mem_append.mp he with h1 | h2
        · exact absurd (FS.hasPath_iff.mpr ⟨e, h1, hrf⟩) (by simp [hr])
        · rcases List.mem_singleton.mp h2 with rfl
          exact hq hrf.symm

theorem FS.lookup_setFile_self {fs : FS} {t : List String} {c : String}
    (ht : t.isEmpty = false) :
    (fs.setFile t c).lookup t = some (EntryKind.file c.utf8ByteSize (some c)) := by
  cases hh : fs.hasPath t with
  | true =>
    have hex : ∃ e ∈ fs.entries, e.1 = t := FS.hasPath_iff.mp hh
    simp [FS.lookup, FS.setFile, hh, ht, find?_update_self hex]
  | false =>
    simp [FS.lookup, FS.setFile, hh, ht, List.find?_append, FS.find?_eq_none_of_not_hasPath hh]

theorem FS.lookup_setFile_other {fs : FS} {t q : List String} {c : String} (hq : q ≠ t) :
    (fs.setFile t c).lookup q = fs.lookup q := by
  cases he : q.isEmpty with
  | true => simp [FS.lookup, he]
  | false =>
    cases hh : fs.hasPath t with
    | true => simp [FS.lookup, FS.setFile, hh, he, find?_update_other hq]
    | false =>
      simp only [FS.lookup, FS.setFile, hh, Bool.false_eq_true, if_false, he, List.find?_append]
      cases hf : fs.entries.find? (fun e => e.1 == q) with
      | some e => rfl
      | none =>
        rw [Option.none_or]
        have hqt : ¬t = q := fun h => hq h.symm
        have hone : (([(t, EntryKind.file c.utf8ByteSize (some c))] :
            List (List String × EntryKind)).find? (fun e => e.1 == q)) = none := by
          simp [List.find?_cons, hqt]
        rw [hone]

theorem FS.setFile_eq_map {fs : FS} {t : List String} {c : String}
    (hh : fs.hasPath t = true) :
    fs.setFile t c =
      ⟨fs.entries.map (fun e =>
        if e.1 = t then (t, EntryKind.file c.utf8ByteSize (some c)) else e)⟩ := by
  simp [FS.setFile, hh]

theorem FS.setFile_eq_append {fs : FS} {t : List String} {c : String}
    (hh : fs.hasPath t = false) :
    fs.setFile t c = ⟨fs.entries ++ [(t, EntryKind.file c.utf8ByteSize (some c))]⟩ := by
  simp [FS.setFile, hh]

theorem FS.setFile_idem {fs : FS} {t : List String} {c : String} :
    (fs.setFile t c).setFile t c = fs.setFile t c := by
  cases hh : fs.hasPath t with
  | true =>
    rw [FS.setFile_eq_map hh]
    have hs2 : FS.hasPath ⟨fs.entries.map (fun e =>
        if e.1 = t then (t, EntryKind.file c.utf8ByteSize (some c)) else e)⟩ t = true := by
      rw [← FS.setFile_eq_map hh]
      exact FS.hasPath_setFile_self
    rw [FS.setFile_eq_map hs2]
    congr 1
    show (fs.entries.map _).map _ = fs.entries.map _
    rw [List.map_map]
    apply List.map_congr_left
    intro e he
    by_cases ha : e.1 = t <;> simp [Function.comp, ha]
  | false =>
    have hne : ∀ e ∈ fs.entries, e.1 ≠ t := by
      intro e he hq
      exact absurd (FS.hasPath_iff.mpr ⟨e, he, hq⟩) (by simp [hh])
    rw [FS.setFile_eq_append hh]
    have hs2 : FS.hasPath ⟨fs.entries ++ [(t, EntryKind.file c.utf8ByteSize (some c))]⟩ t =
        true := by
      rw [← FS.setFile_eq_append hh]
      exact FS.hasPath_setFile_self
    rw [FS.setFile_eq_map hs2]
    congr 1
    show (fs.entries ++ [(t, EntryKind.file c.utf8ByteSize (some c))]).map _ =
      fs.entries ++ [(t, EntryKind.file c.utf8ByteSize (some c))]
    rw [List.map_append]
    congr 1
    · have hid : ∀ e ∈ fs.entries,
          (fun e => if e.1 = t then (t, EntryKind.file c.utf8ByteSize (some c)) else e) e =
            id e := by
        intro e he
        simp [hne e he]
      rw [List.map_congr_left hid, List.map_id]
    · simp

/-! ### C3: the write-overwrite fallback trigger and directory creation -/

/-- C3 counterexample: at the legal request `missing/a**b.py` (target and
parent both absent, so the search is triggered) the claimed literal-target
write with directory creation never happens - the glob engine raises
`ValueError` on the malformed basename pattern and the exception escapes
before any mutation. -/
theorem write_malformed_basename_counterexample :
    write_file "/r" sampleFS "missing/a**b.py" "x" .ok =
      .error (.valueError "Invalid pattern: \x27**\x27 can only be an entire path component") ∧
    write_file "/r" sampleFS "missing/a**b.py" "x" .ok ≠
      .ok (writeAt sampleFS ["missing", "a**b.py"] "missing/a**b.py" "x") := by
  have h1 : write_file "/r" sampleFS "missing/a**b.py" "x" .ok =
      .error (.valueError "Invalid pattern: \x27**\x27 can only be an entire path component") := rfl
  exact ⟨h1, by rw [h1]; exact fun h => Except.noConfusion h⟩

/-- C3 (amended): `write_file` consults the recursive search exactly when the
literal target does not exist AND its parent directory does not exist either;
the basename is handed to `rglob`, so it **glob-matches** (wildcards match as
in `fnmatch`), the first match (if any) becomes the overwrite target, and
otherwise - search not triggered, or no match - the write happens at the
literal target, with every missing intermediate directory of its parent chain
created and the content stored there.  A malformed basename makes the engine
raise instead (see the counterexample); the glob conjuncts are stated for
basenames in the exactly-modelled class `globSegFaithful`. -/
theorem write_fallback_trigger_glob
    (wd : String) (fs : FS) (p c : String) (t : List String)
    (h1 : resolveRel (rootOf wd) p = some t) :
    (fs.existsP t = true ∨ fs.existsP t.dropLast = true →
      write_file wd fs p c .ok = .ok (writeAt fs t p c)) ∧
    (fs.existsP t = false → fs.existsP t.dropLast = false →
      globSegFaithful (pyName p) = true →
      (fs.rglobMatches (pyName p) =
        fs.paths.filter (fun q => globSuffixMatch [pyName p] q)) ∧
      (fs.rglobMatches (pyName p) = [] → write_file wd fs p c .ok = .ok (writeAt fs t p c)) ∧
      (∀ f rest, fs.rglobMatches (pyName p) = f :: rest →
          write_file wd fs p c .ok = .ok (writeAt fs f p c))) ∧
    (fs.existsP t = false → fs.mkdirOk t.dropLast = true →
      writeAt fs t p c = (writeSuccessMsg p c, (fs.mkdirs t.dropLast).setFile t c) ∧
      ((fs.mkdirs t.dropLast).setFile t c).lookup t =
        some (.file c.utf8ByteSize (some c)) ∧
      (∀ q ∈ ancestors t.dropLast,
        ((fs.mkdirs t.dropLast).setFile t c).isDirAt q = true)) := by
  refine ⟨?_, ?_, ?_⟩
  · intro h
    have hcond : (!fs.existsP t && !fs.existsP t.dropLast) = false := by
      rcases h with h | h <;> simp [h]
    have hor : (fs.existsP t || fs.existsP t.dropLast) = true := by
      rcases h with h | h <;> simp [h]
    simp [write_file, h1, hor, writeTarget, hcond]
  · intro hE hP hfa
    have hR : rglobRaise (pyName p) = none := rglobRaise_of_faithful_name hfa
    refine ⟨rglobMatches_of_no_raise hR ▸ (pyParts_of_faithful hfa ▸ rfl), ?_, ?_⟩
    · intro hm
      simp [write_file, h1, writeTarget, hE, hP, hR, hm]
    · intro f rest hm
      simp [write_file, h1, writeTarget, hE, hP, hR, hm]
  · intro hE hok
    have htne : t ≠ [] := by
      intro h
      rw [h] at hE
      simp [FS.existsP] at hE
    have htemp : t.isEmpty = false := by
      cases t with
      | nil => exact absurd rfl htne
      | cons a l => rfl
    have hnp : fs.hasPath t = false := by
      cases hh : fs.hasPath t with
      | false => rfl
      | true =>
        rw [FS.existsP, hh, Bool.or_true] at hE
        exact Bool.noConfusion hE
    have hlk : (fs.mkdirs t.dropLast).lookup t = none := by
      rw [FS.lookup_mkdirs_not_mem (not_mem_ancestors_dropLast htne)]
      exact FS.lookup_eq_none_of_not_hasPath htemp hnp
    have hopen : (fs.mkdirs t.dropLast).openWriteOk t = true := by
      simp [FS.openWriteOk, hlk]
    refine ⟨by simp [writeAt, hok, hopen], FS.lookup_setFile_self htemp, ?_⟩
    intro q hq
    have hqt : q ≠ t := by
      intro h
      exact not_mem_ancestors_dropLast htne (h ▸ hq)
    unfold FS.isDirAt
    rw [FS.lookup_setFile_other hqt, FS.lookup_mkdirs_mem hok hq]

/-- Witness for the amended C3: writing to `missing/*.py` (target and parent
both absent) glob-resolves the wildcard basename and overwrites the first
`.py` file of the traversal, `main.py` at the root; writing
`pkg/calculator.py` overwrites the found `calculator/pkg/calculator.py`;
writing `newdir/sub/f.txt` (no match anywhere) creates both directories and
the file at the literal location; writing `calculator/main.py` (parent
exists) never consults the search even though a same-named file exists
elsewhere. -/
theorem write_fallback_trigger_glob_witness :
    (write_file "/r" sampleFS "missing/*.py" "xy" .ok =
      .ok (writeAt sampleFS ["main.py"] "missing/*.py" "xy")) ∧
    (write_file "/r" sampleFS "calculator/main.py" "new" .ok =
      .ok (writeAt sampleFS ["calculator", "main.py"] "calculator/main.py" "new")) ∧
    (write_file "/r" sampleFS "pkg/calculator.py" "xy" .ok =
      .ok (writeAt sampleFS ["calculator", "pkg", "calculator.py"] "pkg/calculator.py" "xy")) ∧
    (write_file "/r" sampleFS "newdir/sub/f.txt" "hello" .ok =
      .ok (writeAt sampleFS ["newdir", "sub", "f.txt"] "newdir/sub/f.txt" "hello")) ∧
    writeAt sampleFS ["newdir", "sub", "f.txt"] "newdir/sub/f.txt" "hello" =
      (writeSuccessMsg "newdir/sub/f.txt" "hello",
        (sampleFS.mkdirs ["newdir", "sub"]).setFile ["newdir", "sub", "f.txt"] "hello") ∧
    ((sampleFS.mkdirs ["newdir", "sub"]).setFile ["newdir", "sub", "f.txt"] "hello").lookup
        ["newdir", "sub", "f.txt"] = some (.file 5 (some "hello")) ∧
    ((sampleFS.mkdirs ["newdir", "sub"]).setFile ["newdir", "sub", "f.txt"] "hello").isDirAt
        ["newdir"] = true ∧
    ((sampleFS.mkdirs ["newdir", "sub"]).setFile ["newdir", "sub", "f.txt"] "hello").isDirAt
        ["newdir", "sub"] = true := by
  have hG := ((write_fallback_trigger_glob "/r" sampleFS "missing/*.py" "xy"
    ["missing", "*.py"] (by rfl)).2.1 (by rfl) (by rfl) (by rfl)).2.2
    ["main.py"] [["calculator", "main.py"], ["calculator", "pkg", "calculator.py"]] (by rfl)
  have hA := (write_fallback_trigger_glob "/r" sampleFS "calculator/main.py" "new"
    ["calculator", "main.py"] (by rfl)).1 (Or.inr (by rfl))
  have hB := ((write_fallback_trigger_glob "/r" sampleFS "pkg/calculator.py" "xy"
    ["pkg", "calculator.py"] (by rfl)).2.1 (by rfl) (by rfl) (by rfl)).2.2
    ["calculator", "pkg", "calculator.py"] [] (by rfl)
  have hC := ((write_fallback_trigger_glob "/r" sampleFS "newdir/sub/f.txt" "hello"
    ["newdir", "sub", "f.txt"] (by rfl)).2.1 (by rfl) (by rfl) (by rfl)).2.1
  have hD := (write_fallback_trigger_glob "/r" sampleFS "newdir/sub/f.txt" "hello"
    ["newdir", "sub", "f.txt"] (by rfl)).2.2 (by rfl) (by rfl)
  refine ⟨hG, hA, hB, hC (by rfl), hD.1, hD.2.1, ?_, ?_⟩
  · exact hD.2.2 ["newdir"] (by decide)
  · exact hD.2.2 ["newdir", "sub"] (by decide)

/-! ### C8: idempotence of `write_file` -/

theorem existsP_false_elim {fs : FS} {t : List String} (h : fs.existsP t = false) :
    t.isEmpty = false ∧ fs.hasPath t = false := by
  unfold FS.existsP at h
  cases h1 : t.isEmpty with
  | true => rw [h1] at h; simp at h
  | false =>
    rw [h1] at h
    simpa using h

theorem FS.existsP_setFile_mono {fs : FS} {t q : List String} {c : String}
    (hq : fs.existsP q = true) : (fs.setFile t c).existsP q = true := by
  by_cases hqt : q = t
  · subst hqt
    unfold FS.existsP
    rw [FS.hasPath_setFile_self]
    simp
  · unfold FS.existsP at hq ⊢
    rw [FS.hasPath_setFile_other hqt]
    exact hq

theorem FS.existsP_mkdirs_mono {fs : FS} {pt q : List String}
    (hq : fs.existsP q = true) : (fs.mkdirs pt).existsP q = true := by
  unfold FS.existsP at hq ⊢
  cases h1 : q.isEmpty with
  | true => simp [h1]
  | false =>
    rw [h1] at hq
    simp only [h1, Bool.false_or] at hq ⊢
    exact FS.hasPath_mkdirs_of_hasPath hq

theorem FS.hasPath_of_mem_rglob {fs : FS} {pat : String} {f : List String}
    (h : f ∈ fs.rglobMatches pat) : fs.hasPath f = true := by
  unfold FS.rglobMatches at h
  cases hr : rglobRaise pat with
  | some e => rw [hr] at h; simp at h
  | none =>
    rw [hr] at h
    have hmem : f ∈ fs.paths := (List.mem_filter.mp h).1
    unfold FS.hasPath
    exact List.elem_eq_true_of_mem hmem

theorem FS.exists_kind_of_hasPath {fs : FS} {q : List String}
    (hq : q.isEmpty = false) (h : fs.hasPath q = true) : ∃ k, fs.lookup q = some k := by
  cases hk : fs.lookup q with
  | some k => exact ⟨k, rfl⟩
  | none =>
    exfalso
    obtain ⟨e, he, hrf⟩ := FS.hasPath_iff.mp h
    simp only [FS.lookup, hq, Bool.false_eq_true, if_false] at hk
    rw [Option.map_eq_none'] at hk
    rw [List.find?_eq_none] at hk
    exact hk e he (by simp [hrf])

theorem writeTarget_eq_of_not_trigger {fs : FS} {t : List String} {name : String}
    (h : fs.existsP t = true ∨ fs.existsP t.dropLast = true) :
    writeTarget fs t name = t := by
  unfold writeTarget
  rcases h with h | h <;> simp [h]

theorem writeTarget_eq_of_trigger_nil {fs : FS} {t : List String} {name : String}
    (hE : fs.existsP t = false) (hP : fs.existsP t.dropLast = false)
    (hm : fs.rglobMatches name = []) : writeTarget fs t name = t := by
  simp [writeTarget, hE, hP, hm]

theorem writeTarget_eq_of_trigger_cons {fs : FS} {t f : List String} {rest : List (List String)}
    {name : String} (hE : fs.existsP t = false) (hP : fs.existsP t.dropLast = false)
    (hm : fs.rglobMatches name = f :: rest) : writeTarget fs t name = f := by
  simp [writeTarget, hE, hP, hm]

theorem writeAt_existsP_mono {fs : FS} {t q : List String} {p c m : String} {fs1 : FS}
    (h : writeAt fs t p c = (m, fs1)) (hq : fs.existsP q = true) :
    fs1.existsP q = true := by
  cases hmk : fs.mkdirOk t.dropLast with
  | false =>
    simp [writeAt, hmk] at h
    rw [← h.2]
    exact hq
  | true =>
    cases hop : (fs.mkdirs t.dropLast).openWriteOk t with
    | false =>
      simp [writeAt, hmk, hop] at h
      rw [← h.2]
      exact FS.existsP_mkdirs_mono hq
    | true =>
      simp [writeAt, hmk, hop] at h
      rw [← h.2]
      exact FS.existsP_setFile_mono (FS.existsP_mkdirs_mono hq)

theorem FS.mkdirOk_mkdirs {fs : FS} {pt : List String} (hmk : fs.mkdirOk pt = true) :
    (fs.mkdirs pt).mkdirOk pt = true := by
  unfold FS.mkdirOk
  rw [List.all_eq_true]
  intro q hq
  simp [FS.lookup_mkdirs_mem hmk hq]

theorem FS.mkdirs_mkdirs {fs : FS} {pt : List String} :
    (fs.mkdirs pt).mkdirs pt = fs.mkdirs pt :=
  FS.mkdirs_eq_self (fun _ hq => FS.hasPath_mkdirs_of_mem hq)

/-- Running the mkdir-and-open phase a second time at the same literal target,
from the snapshot the first run produced, reproduces the first result. -/
theorem writeAt_stable {fs : FS} {t : List String} {p c m : String} {fs1 : FS}
    (h : writeAt fs t p c = (m, fs1)) : writeAt fs1 t p c = (m, fs1) := by
  cases hmk : fs.mkdirOk t.dropLast with
  | false =>
    simp [writeAt, hmk] at h
    obtain ⟨hm, hfs⟩ := h
    rw [← hfs, ← hm]
    simp [writeAt, hmk]
  | true =>
    cases hop : (fs.mkdirs t.dropLast).openWriteOk t with
    | false =>
      simp [writeAt, hmk, hop] at h
      obtain ⟨hm, hfs⟩ := h
      rw [← hfs, ← hm]
      have hmk1 := FS.mkdirOk_mkdirs hmk
      simp [writeAt, hmk1, FS.mkdirs_mkdirs, hop]
    | true =>
      simp [writeAt, hmk, hop] at h
      obtain ⟨hm, hfs⟩ := h
      rw [← hfs, ← hm]
      have htne : t ≠ [] := by
        intro h0
        rw [h0] at hop
        simp [FS.openWriteOk, FS.lookup] at hop
      have htemp : t.isEmpty = false := by
        cases t with
        | nil => exact absurd rfl htne
        | cons a l => rfl
      have hnm := not_mem_ancestors_dropLast htne
      have hmk1 : ((fs.mkdirs t.dropLast).setFile t c).mkdirOk t.dropLast = true := by
        unfold FS.mkdirOk
        rw [List.all_eq_true]
        intro q hq
        have hqt : q ≠ t := fun h0 => hnm (h0 ▸ hq)
        rw [FS.lookup_setFile_other hqt, FS.lookup_mkdirs_mem hmk hq]
      have hmkd : ((fs.mkdirs t.dropLast).setFile t c).mkdirs t.dropLast =
          (fs.mkdirs t.dropLast).setFile t c := by
        apply FS.mkdirs_eq_self
        intro q hq
        have hqt : q ≠ t := fun h0 => hnm (h0 ▸ hq)
        rw [FS.hasPath_setFile_other hqt]
        exact FS.hasPath_mkdirs_of_mem hq
      have hop2 : ((fs.mkdirs t.dropLast).setFile t c).openWriteOk t = true := by
        simp [FS.openWriteOk, FS.lookup_setFile_self htemp]
      simp [writeAt, hmk1, hmkd, hop2, FS.setFile_idem]

/-- After a first write at the literal target, the overwrite-fallback of a
second identical call is still not consulted (or still finds nothing), so the
literal target is chosen again. -/
theorem writeTarget_stable_literal {fs : FS} {t : List String} {name p c m : String} {fs1 : FS}
    (hch : fs.existsP t = true ∨ fs.existsP t.dropLast = true ∨
      (fs.existsP t = false ∧ fs.existsP t.dropLast = false ∧ fs.rglobMatches name = []))
    (h : writeAt fs t p c = (m, fs1)) : writeTarget fs1 t name = t := by
  rcases hch with hE | hP | ⟨hE, hP, hM⟩
  · exact writeTarget_eq_of_not_trigger (Or.inl (writeAt_existsP_mono h hE))
  · exact writeTarget_eq_of_not_trigger (Or.inr (writeAt_existsP_mono h hP))
  · obtain ⟨htemp, hnp⟩ := existsP_false_elim hE
    have htne : t ≠ [] := by
      intro h0
      rw [h0] at htemp
      exact Bool.noConfusion htemp
    cases hmk : fs.mkdirOk t.dropLast with
    | false =>
      simp [writeAt, hmk] at h
      rw [← h.2]
      exact writeTarget_eq_of_trigger_nil hE hP hM
    | true =>
      have hop : (fs.mkdirs t.dropLast).openWriteOk t = true := by
        unfold FS.openWriteOk
        rw [FS.lookup_mkdirs_not_mem (not_mem_ancestors_dropLast htne),
          FS.lookup_eq_none_of_not_hasPath htemp hnp]
      simp [writeAt, hmk, hop] at h
      rw [← h.2]
      apply writeTarget_eq_of_not_trigger
      left
      unfold FS.existsP
      rw [FS.hasPath_setFile_self]
      simp

theorem dropLast_take {l : List String} {i : Nat} (h : i + 1 ≤ l.length - 1) :
    l.dropLast.take (i + 1) = l.take (i + 1) := by
  rw [List.dropLast_eq_take, List.take_take, Nat.min_eq_left h]

/-- In a realizable snapshot, every ancestor position of a recorded entry is
a directory, so `mkdir(parents=True, exist_ok=True)` on the parent of a found
entry succeeds and changes nothing. -/
theorem FS.WF.mkdirs_found {fs : FS} (hwf : FS.WF fs) {f : List String}
    (hf : fs.hasPath f = true) :
    fs.mkdirOk f.dropLast = true ∧ fs.mkdirs f.dropLast = fs ∧ f ≠ [] ∧
      (∀ q ∈ ancestors f.dropLast, fs.lookup q = some EntryKind.dir) := by
  obtain ⟨e, he, hrf⟩ := FS.hasPath_iff.mp hf
  subst hrf
  have hne := hwf.nonnil e he
  have hlen : 1 ≤ e.1.length := by
    cases hq : e.1 with
    | nil => exact absurd hq hne
    | cons a l => simp [hq]
  have hpar : ∀ q ∈ ancestors e.1.dropLast, fs.lookup q = some EntryKind.dir := by
    intro q hq
    obtain ⟨i, hi, rfl⟩ := mem_ancestors.mp hq
    rw [List.length_dropLast] at hi
    have hle : i + 1 ≤ e.1.length - 1 := by omega
    rw [dropLast_take hle]
    exact hwf.parents e he i (by omega)
  refine ⟨?_, ?_, hne, hpar⟩
  · unfold FS.mkdirOk
    rw [List.all_eq_true]
    intro q hq
    simp [hpar q hq]
  · exact FS.mkdirs_eq_self (fun q hq =>
      FS.hasPath_of_lookup_some (isEmpty_false_of_mem_ancestors hq) (hpar q hq))

/-- Running the fallback-overwrite path a second time from the snapshot the
first run produced chooses the same found entry and reproduces the result
(the snapshot is realizable, so the found entry has existing parents). -/
theorem writeAt_fallback_stable {fs : FS} {t f : List String} {rest : List (List String)}
    {p c m : String} {fs1 : FS}
    (hwf : FS.WF fs)
    (hE : fs.existsP t = false) (hP : fs.existsP t.dropLast = false)
    (hm : fs.rglobMatches (pyName p) = f :: rest)
    (h : writeAt fs f p c = (m, fs1)) :
    writeTarget fs1 t (pyName p) = f ∧ writeAt fs1 f p c = (m, fs1) := by
  have hmem : f ∈ fs.rglobMatches (pyName p) := by
    rw [hm]
    exact List.mem_cons_self f rest
  have hfp : fs.hasPath f = true := FS.hasPath_of_mem_rglob hmem
  obtain ⟨hmk, hmkd, hfne, hpar⟩ := hwf.mkdirs_found hfp
  have hftemp : f.isEmpty = false := by
    cases f with
    | nil => exact absurd rfl hfne
    | cons a l => rfl
  obtain ⟨htemp, hnp⟩ := existsP_false_elim hE
  obtain ⟨hptemp, hpnp⟩ := existsP_false_elim hP
  cases hop : fs.openWriteOk f with
  | false =>
    rw [writeAt, hmk] at h
    simp only [Bool.not_true, Bool.false_eq_true, if_false, hmkd, hop, Bool.not_false,
      if_true] at h
    obtain ⟨hm1, hfs⟩ := Prod.mk.injEq .. ▸ h
    rw [← hfs, ← hm1]
    refine ⟨writeTarget_eq_of_trigger_cons hE hP hm, ?_⟩
    rw [writeAt, hmk]
    simp only [Bool.not_true, Bool.false_eq_true, if_false, hmkd, hop, Bool.not_false, if_true]
  | true =>
    rw [writeAt, hmk] at h
    simp only [Bool.not_true, Bool.false_eq_true, if_false, hmkd, hop, Bool.not_false,
      if_true] at h
    obtain ⟨hm1, hfs⟩ := Prod.mk.injEq .. ▸ h
    rw [← hfs, ← hm1]
    have hpaths : (fs.setFile f c).paths = fs.paths := FS.paths_setFile_of_hasPath hfp
    have hHP : ∀ q, (fs.setFile f c).hasPath q = fs.hasPath q := by
      intro q
      unfold FS.hasPath
      rw [hpaths]
    have hEx2 : (fs.setFile f c).existsP t = false := by
      unfold FS.existsP
      rw [hHP t, hnp, htemp]
      rfl
    have hP2 : (fs.setFile f c).existsP t.dropLast = false := by
      unfold FS.existsP
      rw [hHP t.dropLast, hpnp, hptemp]
      rfl
    have hM2 : (fs.setFile f c).rglobMatches (pyName p) = f :: rest := by
      unfold FS.rglobMatches at hm ⊢
      rw [hpaths]
      exact hm
    have hnm := not_mem_ancestors_dropLast hfne
    have hmk2 : (fs.setFile f c).mkdirOk f.dropLast = true := by
      unfold FS.mkdirOk
      rw [List.all_eq_true]
      intro q hq
      have hqt : q ≠ f := fun h0 => hnm (h0 ▸ hq)
      rw [FS.lookup_setFile_other hqt, hpar q hq]
    have hmkd2 : (fs.setFile f c).mkdirs f.dropLast = fs.setFile f c := by
      apply FS.mkdirs_eq_self
      intro q hq
      rw [hHP q]
      exact FS.hasPath_of_lookup_some (isEmpty_false_of_mem_ancestors hq) (hpar q hq)
    have hop2 : (fs.setFile f c).openWriteOk f = true := by
      simp [FS.openWriteOk, FS.lookup_setFile_self hftemp]
    refine ⟨writeTarget_eq_of_trigger_cons hEx2 hP2 hM2, ?_⟩
    rw [writeAt, hmk2]
    simp only [Bool.not_true, Bool.false_eq_true, if_false, hmkd2, hop2, Bool.not_false,
      if_true, FS.setFile_idem]

/-- C8: `write_file` is idempotent on every realizable snapshot: a second
call with the same path and content, against the snapshot the first call
produced and with the same oracle outcome, returns the same result text
(hence the same reported character count) and leaves the snapshot exactly as
the first call left it; the success message reports the character count of
the written content. -/
theorem write_file_idempotent
    (wd : String) (fs : FS) (p c : String) (fx : WriteOutcome) (m : String) (fs1 : FS)
    (hwf : FS.WF fs)
    (h : write_file wd fs p c fx = .ok (m, fs1)) :
    write_file wd fs1 p c fx = .ok (m, fs1) ∧
    writeSuccessMsg p c =
      "Successfully wrote to \"" ++ p ++ "\" (" ++ toString c.length ++
        " characters written)" := by
  refine ⟨?_, rfl⟩
  cases hr : resolveRel (rootOf wd) p with
  | none =>
    simp only [write_file, hr] at h ⊢
    have h2 : accessDeniedFileMsg p wd = m ∧ fs = fs1 := by simpa using h
    rw [← h2.2, ← h2.1]
  | some t =>
    cases fx with
    | ok =>
      simp only [write_file, hr] at h ⊢
      cases hEb : fs.existsP t with
      | true =>
        have hg : (if fs.existsP t || fs.existsP t.dropLast then none
            else rglobRaise (pyName p)) = none := by simp [hEb]
        simp only [hg] at h
        rw [Except.ok.injEq] at h
        rw [writeTarget_eq_of_not_trigger (Or.inl hEb)] at h
        have hg1 : (if fs1.existsP t || fs1.existsP t.dropLast then none
            else rglobRaise (pyName p)) = none := by
          simp [writeAt_existsP_mono h hEb]
        simp only [hg1]
        rw [Except.ok.injEq]
        rw [writeTarget_stable_literal (Or.inl hEb) h]
        exact writeAt_stable h
      | false =>
        cases hPb : fs.existsP t.dropLast with
        | true =>
          have hg : (if fs.existsP t || fs.existsP t.dropLast then none
              else rglobRaise (pyName p)) = none := by simp [hPb]
          simp only [hg] at h
          rw [Except.ok.injEq] at h
          rw [writeTarget_eq_of_not_trigger (Or.inr hPb)] at h
          have hg1 : (if fs1.existsP t || fs1.existsP t.dropLast then none
              else rglobRaise (pyName p)) = none := by
            simp [writeAt_existsP_mono h hPb]
          simp only [hg1]
          rw [Except.ok.injEq]
          rw [writeTarget_stable_literal (Or.inr (Or.inl hPb)) h]
          exact writeAt_stable h
        | false =>
          cases hRg : rglobRaise (pyName p) with
          | some e =>
            have hg : (if fs.existsP t || fs.existsP t.dropLast then none
                else rglobRaise (pyName p)) = some e := by simp [hEb, hPb, hRg]
            simp only [hg] at h
            exact Except.noConfusion h
          | none =>
            have hg : (if fs.existsP t || fs.existsP t.dropLast then none
                else rglobRaise (pyName p)) = none := by simp [hEb, hPb, hRg]
            simp only [hg] at h
            simp only [ite_self]
            rw [Except.ok.injEq] at h ⊢
            cases hM : fs.rglobMatches (pyName p) with
            | nil =>
              rw [writeTarget_eq_of_trigger_nil hEb hPb hM] at h
              rw [writeTarget_stable_literal (Or.inr (Or.inr ⟨hEb, hPb, hM⟩)) h]
              exact writeAt_stable h
            | cons f rest =>
              rw [writeTarget_eq_of_trigger_cons hEb hPb hM] at h
              obtain ⟨hwt, hwa⟩ := writeAt_fallback_stable hwf hEb hPb hM h
              rw [hwt]
              exact hwa
    | permissionDenied =>
      simp only [write_file, hr] at h ⊢
      cases hg : (if fs.existsP t || fs.existsP t.dropLast then none
          else rglobRaise (pyName p)) with
      | some e =>
        simp only [hg] at h
        exact Except.noConfusion h
      | none =>
        simp only [hg] at h
        have h2 : writePermMsg p = m ∧ fs = fs1 := by simpa using h
        rw [← h2.2, ← h2.1]
        simp only [hg]
    | osFault msg =>
      simp only [write_file, hr] at h ⊢
      cases hg : (if fs.existsP t || fs.existsP t.dropLast then none
          else rglobRaise (pyName p)) with
      | some e =>
        simp only [hg] at h
        exact Except.noConfusion h
      | none =>
        simp only [hg] at h
        have h2 : writeOsMsg p msg = m ∧ fs = fs1 := by simpa using h
        rw [← h2.2, ← h2.1]
        simp only [hg]
    | raised msg =>
      simp only [write_file, hr] at h ⊢
      cases hg : (if fs.existsP t || fs.existsP t.dropLast then none
          else rglobRaise (pyName p)) with
      | some e =>
        simp only [hg] at h
        exact Except.noConfusion h
      | none =>
        simp only [hg] at h
        have h2 : writeUnexpectedMsg p msg = m ∧ fs = fs1 := by simpa using h
        rw [← h2.2, ← h2.1]
        simp only [hg]

theorem sampleFS_WF : FS.WF sampleFS := by
  refine ⟨by decide, ?_⟩
  intro e he i hi
  fin_cases he <;> rcases i with _ | _ | j <;>
    first
      | decide
      | exact absurd hi (by decide)
      | ((simp at hi) <;> omega)

/-- Witness for C8: repeating the write of `hello` to `newdir/sub/f.txt`
against the snapshot the first call produced returns the same message (same
5-character count) and the identical snapshot. -/
theorem write_file_idempotent_witness :
    write_file "/r" sampleFSWritten "newdir/sub/f.txt" "hello" .ok =
      .ok ("Successfully wrote to \"newdir/sub/f.txt\" (5 characters written)",
        sampleFSWritten) ∧
    writeSuccessMsg "newdir/sub/f.txt" "hello" =
      "Successfully wrote to \"" ++ "newdir/sub/f.txt" ++ "\" (" ++
        toString ("hello" : String).length ++ " characters written)" :=
  write_file_idempotent "/r" sampleFS "newdir/sub/f.txt" "hello" .ok
    "Successfully wrote to \"newdir/sub/f.txt\" (5 characters written)" sampleFSWritten
    sampleFS_WF (by rfl)
